import Mathlib

/-!
Verification of the resilient API access layer of the criaitor frontend.

This development shallowly embeds the two core pieces of the repository:

* `src/lib/api.ts` — the authenticated fetch client (`apiFetch`,
  `refreshAccessToken`, `retryRequestWithFreshToken`,
  `redirectToLoginIfNeeded`) together with the token store built on
  `localStorage`;
* `src/hooks/useIdeas.ts` — the defensive response normalizer
  (`mapCommunityIdeaPayload`, `ensureIdeaId`, `generateSecureIdeaId`,
  `parseTimestamp` and friends) and the pagination adapter
  (`isPaginatedResponse`, `mapPaginatedResponse`, `extractArrayPayload`).

Modelling conventions:

* JavaScript strings are `List Char` (`JStr`); the JS string operations used
  by the source (`trim`, `replace(',', '.')` which replaces only the first
  occurrence, `split`, `slice`, `padStart`/`padEnd`, `startsWith`/`endsWith`)
  are defined below with their JS semantics.  `trim` is modelled with
  `Char.isWhitespace` (the exotic Unicode space classes JS additionally
  trims do not occur in any claim).
* JSON-ish runtime values are the inductive `JSVal`.  JS numbers are
  modelled as integers (`Int`); every numeric value appearing in the source
  paths under verification is integral.  `NaN` is modelled as `Option.none`
  at the points where it can arise (`Number(...)` conversions, invalid
  `Date`s).  `Number(string)` is modelled for optionally-signed decimal
  integer strings; other strings (including fractional ones) map to `none`.
* A JS `Date` is its time value: `Option Int` milliseconds since the epoch,
  `none` being an Invalid Date.  `new Date(...)` and `Date.UTC` apply the
  ECMAScript `TimeClip` bound of ±8.64e15 ms and the 0–99 → 1900–1999 year
  rule; `Date.UTC` month/day/time overflow is folded in linearly, exactly
  as `MakeDay`/`MakeTime` prescribe.  The engine-specific parse of
  non-ISO strings (the `new Date(normalized)` fallback) is a parameter
  `platformParse` of the environment, and the local time zone offset (in
  minutes, as returned by `getTimezoneOffset`) is a constant parameter
  `off` (daylight-saving transitions are not modelled).
* Effects (localStorage, fetch, location.href) are threaded as explicit
  state and environment parameters; `async`/`await` control flow is
  modelled by cutting the functions at their `await` points, and the
  single-flight refresh by an atomic join step on the module state
  (`isRefreshing`, `refreshPromise`), which is sound because the segment of
  `refreshAccessToken` from the in-flight check to the initiation of the
  refresh `fetch` contains no `await` and therefore cannot interleave with
  another caller in the single-threaded event-loop execution model.
-/

namespace Criaitor

/-! ## JS strings -/

/-- JavaScript strings, as lists of characters. -/
abbrev JStr := List Char

/-- Whitespace for `String.prototype.trim`. -/
def jsWhitespace (c : Char) : Bool := c.isWhitespace

/-- `s.trim()`. -/
def trimList (s : JStr) : JStr :=
  ((s.dropWhile jsWhitespace).reverse.dropWhile jsWhitespace).reverse

/-- `s.replace(old, repl)` with one-character arguments: JS `replace` with a
string pattern replaces only the first occurrence. -/
def jsReplaceOnce (old repl : Char) : JStr → JStr
  | [] => []
  | c :: cs => if c = old then repl :: cs else c :: jsReplaceOnce old repl cs

/-- `s.split(sep)` for a one-character separator, with the JS corner cases:
`"".split(c) = [""]`, a trailing separator yields a trailing empty piece. -/
def jsSplit (sep : Char) : JStr → List JStr
  | [] => [[]]
  | c :: cs =>
    if c = sep then [] :: jsSplit sep cs
    else
      match jsSplit sep cs with
      | [] => [[c]]
      | t :: ts => (c :: t) :: ts

/-- Value of a decimal digit character. -/
def digitVal (c : Char) : Nat := c.toNat - 48

/-- Is every character a decimal digit (`\d` in the source's regexes)? -/
def isDigitList (s : JStr) : Bool := s.all Char.isDigit

/-- Numeric value of a string of decimal digits. -/
def natOfDigits (s : JStr) : Nat := s.foldl (fun a c => a * 10 + digitVal c) 0

/-- `Number(string)`, restricted to optionally-signed decimal integers (after
JS's implicit trim; empty string yields `0`). Non-integer numeric strings are
mapped to `none` (NaN); no claim involves a fractional numeric string. -/
def jsNumberStr (s : JStr) : Option Int :=
  let t := trimList s
  if t = [] then some 0
  else if t.head? = some '-' then
    if t.tail ≠ [] ∧ isDigitList t.tail then some (-(natOfDigits t.tail : Int))
    else none
  else if t.head? = some '+' then
    if t.tail ≠ [] ∧ isDigitList t.tail then some ((natOfDigits t.tail : Int))
    else none
  else if isDigitList t then some ((natOfDigits t : Int))
  else none

/-! ## JS values -/

/-- Runtime values flowing through the normalizer: JSON values plus `Date`
objects (a valid `Date` carries its millisecond time value). -/
inductive JSVal where
  | null
  | undefined
  | bool (b : Bool)
  | num (n : Int)
  | str (s : JStr)
  | date (ms : Int)
  | arr (elems : List JSVal)
  | obj (fields : List (String × JSVal))
deriving Repr, Inhabited

/-- Property lookup in an object literal (first binding wins; the payloads
under verification have no duplicate keys). -/
def lookupField : List (String × JSVal) → String → JSVal
  | [], _ => .undefined
  | (k, v) :: rest, key => if k = key then v else lookupField rest key

/-- `v[key]` with optional-chaining semantics: accessing a property of a
non-object (or a missing property) yields `undefined`.  The source only
dereferences nested objects through `?.`. -/
def JSVal.get (v : JSVal) (key : String) : JSVal :=
  match v with
  | .obj fields => lookupField fields key
  | _ => .undefined

/-- `key in obj` (presence of the key, regardless of its value). -/
def hasField : List (String × JSVal) → String → Bool
  | [], _ => false
  | (k, _) :: rest, key => if k = key then true else hasField rest key

/-- `a.join(",")` for the `String()` conversion of arrays. -/
def jsJoinComma : List JStr → JStr
  | [] => []
  | [s] => s
  | s :: rest => s ++ [','] ++ jsJoinComma rest

mutual

/-- `String(v)`.  `String(Date)` is engine/locale formatted; it is modelled by
a fixed non-empty placeholder (no claim converts a `Date` to a string). -/
def jsToString : JSVal → JStr
  | .null => "null".toList
  | .undefined => "undefined".toList
  | .bool true => "true".toList
  | .bool false => "false".toList
  | .num n => (toString n).toList
  | .str s => s
  | .date _ => "[object Date]".toList
  | .obj _ => "[object Object]".toList
  | .arr xs => jsJoinComma (jsToStringElems xs)

/-- Element conversion for `Array.prototype.toString`: `null`/`undefined`
elements render as the empty string. -/
def jsToStringElems : List JSVal → List JStr
  | [] => []
  | .null :: rest => [] :: jsToStringElems rest
  | .undefined :: rest => [] :: jsToStringElems rest
  | v :: rest => jsToString v :: jsToStringElems rest

end

/-- `Boolean(v)` / truthiness. -/
def jsTruthy : JSVal → Bool
  | .null => false
  | .undefined => false
  | .bool b => b
  | .num n => n ≠ 0
  | .str s => s ≠ []
  | .date _ => true
  | .arr _ => true
  | .obj _ => true

/-- `Number(v)` for non-string values (objects convert through their
primitive string, which for plain objects is never numeric). -/
def jsNumber : JSVal → Option Int
  | .undefined => none
  | .null => some 0
  | .bool b => some (if b then 1 else 0)
  | .num n => some n
  | .str s => jsNumberStr s
  | .date ms => some ms
  | .arr xs => jsNumberStr (jsToString (.arr xs))
  | .obj _ => none

/-- `a ?? b`. -/
def jsCoalesce (a b : JSVal) : JSVal :=
  match a with
  | .null => b
  | .undefined => b
  | other => other

/-! ## The ECMAScript date model -/

/-- `TimeClip` bound: 8.64e15 milliseconds. -/
def clipBound : Int := 8640000000000000

/-- `TimeClip`: time values beyond the bound denote an Invalid Date. -/
def jsClipInt (t : Int) : Option Int :=
  if -clipBound ≤ t ∧ t ≤ clipBound then some t else none

/-- Days from the epoch to the given civil date (proleptic Gregorian;
month `1..12`, day linear so that out-of-range days roll over exactly as
`MakeDay` does). -/
def daysFromCivil (y m d : Int) : Int :=
  let y1 := if m ≤ 2 then y - 1 else y
  let era := Int.fdiv y1 400
  let yoe := y1 - era * 400
  let mp := Int.emod (m + 9) 12
  let doy := Int.fdiv (153 * mp + 2) 5 + d - 1
  let doe := yoe * 365 + Int.fdiv yoe 4 - Int.fdiv yoe 100 + doy
  era * 146097 + doe - 719468

/-- The unclipped time value of `Date.UTC(y, mo0, d, H, Mi, S, ms)` with a
zero-based month `mo0` (month and day/time overflow normalized as in
`MakeDay`/`MakeTime`), without the 0–99 year rule. -/
def dateUTCRaw (y mo0 d H Mi S ms : Int) : Int :=
  let yAdj := y + Int.fdiv mo0 12
  let m := Int.emod mo0 12 + 1
  daysFromCivil yAdj m d * 86400000 + H * 3600000 + Mi * 60000 + S * 1000 + ms

/-- `MakeFullYear`: integer years 0–99 denote 1900–1999 in the `Date`
constructor and in `Date.UTC`. -/
def adjustYear (y : Int) : Int := if 0 ≤ y ∧ y ≤ 99 then y + 1900 else y

/-- `Date.UTC(y, mo0, d, H, Mi, S, ms)` where each argument is `none` when it
is NaN; NaN propagates and `TimeClip` is applied. -/
def dateUTC? (y mo0 d H Mi S ms : Option Int) : Option Int :=
  match y, mo0, d, H, Mi, S, ms with
  | some y, some mo0, some d, some H, some Mi, some S, some ms =>
    jsClipInt (dateUTCRaw (adjustYear y) mo0 d H Mi S ms)
  | _, _, _, _, _, _, _ => none

/-- `new Date(y, mo0, d, H, Mi, S, ms)`: the fields are local time; `off` is
the local zone offset in minutes (`getTimezoneOffset()`), so the UTC time
value is the local one plus `off * 60000`. -/
def jsDateCtorLocal (off : Int) (y mo0 d H Mi S ms : Option Int) : Option Int :=
  match y, mo0, d, H, Mi, S, ms with
  | some y, some mo0, some d, some H, some Mi, some S, some ms =>
    jsClipInt (dateUTCRaw (adjustYear y) mo0 d H Mi S ms + off * 60000)
  | _, _, _, _, _, _, _ => none

/-! ## The timestamp parser (`useIdeas.ts` lines 297–370) -/

/-- Environment of the timestamp parser: the constant local zone offset in
minutes and the engine-specific `new Date(string)` parse used for strings
that match none of the recognized shapes (`none` = Invalid Date). -/
structure TsEnv where
  off : Int
  platformParse : JStr → Option Int

/-- The regex `/^\d{4}-\d{2}-\d{2}$/`. -/
def isBareDateRe : JStr → Bool
  | [y1, y2, y3, y4, h1, m1, m2, h2, d1, d2] =>
    y1.isDigit && y2.isDigit && y3.isDigit && y4.isDigit && h1 = '-' &&
    m1.isDigit && m2.isDigit && h2 = '-' && d1.isDigit && d2.isDigit
  | _ => false

/-- Gregorian leap year. -/
def isLeapYear (y : Int) : Bool :=
  (Int.emod y 4 = 0 ∧ Int.emod y 100 ≠ 0) ∨ Int.emod y 400 = 0

/-- Days in a month (month `1..12`). -/
def daysInMonth (y m : Int) : Int :=
  if m = 2 then (if isLeapYear y then 29 else 28)
  else if m = 4 ∨ m = 6 ∨ m = 9 ∨ m = 11 then 30
  else 31

/-- `new Date(s + "T00:00:00")` for a string `s` matching the bare-date
regex: the ECMAScript ISO format parse — local midnight of the written
calendar date, Invalid Date when the month or day is out of range.  The
0–99 year rule does not apply to string parsing. -/
def parseBareDateLocal (off : Int) (s : JStr) : Option Int :=
  match s with
  | [y1, y2, y3, y4, _, m1, m2, _, d1, d2] =>
    let y : Int := (natOfDigits [y1, y2, y3, y4] : Int)
    let m : Int := (natOfDigits [m1, m2] : Int)
    let d : Int := (natOfDigits [d1, d2] : Int)
    if 1 ≤ m ∧ m ≤ 12 ∧ 1 ≤ d ∧ d ≤ daysInMonth y m then
      jsClipInt (dateUTCRaw y (m - 1) d 0 0 0 0 + off * 60000)
    else none
  | _ => none

/-- Result of `extractTimeAndZone`. -/
structure TimeZoneSplit where
  timeStr : JStr
  tz : JStr
deriving Repr, DecidableEq

/-- Does a six-character tail match `[+-]\d{2}:\d{2}`? -/
def isTzTail : JStr → Bool
  | [sgn, a, b, c, d, e] =>
    (sgn = '+' ∨ sgn = '-') && a.isDigit && b.isDigit && c = ':' && d.isDigit && e.isDigit
  | _ => false

/-- `extractTimeAndZone` (lines 365–370): match `/(Z|[+-]\d{2}:\d{2})$/` and
split the time string from the zone suffix. -/
def extractTimeAndZone (rest : JStr) : TimeZoneSplit :=
  if rest.getLast? = some 'Z' then
    { timeStr := rest.dropLast, tz := ['Z'] }
  else if rest.length ≥ 6 ∧ isTzTail (rest.drop (rest.length - 6)) then
    { timeStr := rest.take (rest.length - 6), tz := rest.drop (rest.length - 6) }
  else
    { timeStr := rest, tz := [] }

/-- `Number(x)` for `x` an optional string (`none` models `undefined`,
whose conversion is NaN). -/
def numOfOpt : Option JStr → Option Int
  | none => none
  | some s => jsNumberStr s

/-- `Number(x || 0)`: an absent (`undefined`) or empty string is falsy and
defaults to the number `0`. -/
def numOrZero : Option JStr → Option Int
  | none => some 0
  | some [] => some 0
  | some s => jsNumberStr s

/-- `fr.padEnd(3, "0")`. -/
def padEnd3Zeros (s : JStr) : JStr := s ++ List.replicate (3 - s.length) '0'

/-- `parseDateWithOptionalTime` (lines 327–363). -/
def parseDateWithOptionalTime (off : Int) (datePart rest : JStr) : Option Int :=
  let ymd := jsSplit '-' datePart
  let y := numOfOpt (ymd.get? 0)
  let mo := (numOfOpt (ymd.get? 1)).map (fun v => v - 1)
  let d := numOfOpt (ymd.get? 2)
  if rest = [] then
    jsDateCtorLocal off y mo d (some 0) (some 0) (some 0) (some 0)
  else
    let split := extractTimeAndZone rest
    let parts := jsSplit ':' split.timeStr
    let H := numOrZero (parts.get? 0)
    let Mi := numOrZero (parts.get? 1)
    let sPart := match parts.get? 2 with | none => ['0'] | some v => v
    let Sfrac :=
      if sPart = [] then (some (0 : Int), some (0 : Int))
      else
        let sp := jsSplit '.' sPart
        let fr := match sp.get? 1 with
          | none => some (0 : Int)
          | some [] => some (0 : Int)
          | some fracRaw => jsNumberStr (padEnd3Zeros (fracRaw.take 3))
        (numOrZero (sp.get? 0), fr)
    if split.tz = [] then
      jsDateCtorLocal off y mo d H Mi Sfrac.1 Sfrac.2
    else
      let utc0 := dateUTC? y mo d H Mi Sfrac.1 Sfrac.2
      if split.tz = ['Z'] then
        utc0.bind jsClipInt
      else
        let sign : Int := if split.tz.head? = some '-' then -1 else 1
        let tzparts := jsSplit ':' (split.tz.drop 1)
        let tzh := numOfOpt (tzparts.get? 0)
        let tzm := numOfOpt (tzparts.get? 1)
        let offsetMin := tzh.bind (fun a => tzm.map (fun b => sign * (a * 60 + b)))
        (utc0.bind (fun u => offsetMin.map (fun o => u - o * 60000))).bind jsClipInt

/-- `parseTimestampFromString` (lines 312–325). -/
def parseTimestampFromString (env : TsEnv) (raw : JStr) : Option Int :=
  let normalized := jsReplaceOnce ',' '.' (trimList raw)
  if isBareDateRe normalized then
    parseBareDateLocal env.off normalized
  else
    let datePart := normalized.take 10
    if isBareDateRe datePart ∧
        (normalized.length = 10 ∨ normalized.get? 10 = some 'T' ∨
          normalized.get? 10 = some ' ') then
      parseDateWithOptionalTime env.off datePart
        (normalized.drop (if normalized.length = 10 then 10 else 11))
    else
      match env.platformParse normalized with
      | some t => some t
      | none => some 0

/-- The magnitude threshold `1e12` of the numeric branch. -/
def tsThreshold : Int := 1000000000000

/-- `parseTimestamp` (lines 297–310): a `Date` passes through; a number is
Unix seconds unless strictly above the threshold; a string is parsed; any
other value is the epoch. -/
def parseTimestamp (env : TsEnv) (input : JSVal) : Option Int :=
  match input with
  | .date ms => some ms
  | .num n => jsClipInt (if n > tsThreshold then n else n * 1000)
  | .str s => parseTimestampFromString env s
  | _ => some 0

/-! ## Identifier synthesis (`useIdeas.ts` lines 187–214) -/

/-- The capabilities of `globalThis.crypto` (or `msCrypto`): the data each
randomness source would produce on the call under consideration.
`randomUUID`, when present, yields the platform UUID; `getRandomValues`,
when present, fills the freshly allocated `Uint8Array(16)` with the given
16 bytes. -/
structure CryptoApi where
  randomUUID : Option JStr
  randomBytes : Option (Fin 16 → Fin 256)

/-- One hexadecimal digit (lowercase, as `Number.prototype.toString(16)`). -/
def hexDigitChar (n : Nat) : Char :=
  if n < 10 then Char.ofNat (48 + n) else Char.ofNat (97 + (n - 10))

/-- Hex digits of `v` (fuelled division loop; the fuel `v` suffices). -/
def hexRepAux : Nat → Nat → JStr
  | 0, _ => []
  | _ + 1, 0 => []
  | fuel + 1, v => hexRepAux fuel (v / 16) ++ [hexDigitChar (v % 16)]

/-- `v.toString(16)`. -/
def hexRep (v : Nat) : JStr := if v = 0 then ['0'] else hexRepAux v v

/-- `s.padStart(2, "0")`. -/
def padStart2 (s : JStr) : JStr := List.replicate (2 - s.length) '0' ++ s

/-- `value.toString(16).padStart(2, "0")`. -/
def byteToHex (v : Nat) : JStr := padStart2 (hexRep v)

/-- `Array.from(bytes).map(v => v.toString(16).padStart(2, "0")).join("")`. -/
def bytesToHex (bytes : Fin 16 → Fin 256) : JStr :=
  (List.ofFn (fun i : Fin 16 => byteToHex (bytes i).val)).foldr (· ++ ·) []

/-- `generateSecureIdeaId` (lines 199–214): prefer `randomUUID`, fall back to
16 random bytes hex-encoded, and throw when no secure randomness source
exists (`.error` models the thrown `Error`). -/
def generateSecureIdeaId (crypto : Option CryptoApi) : Except JStr JStr :=
  match crypto with
  | none => .error "Unable to generate secure idea ID".toList
  | some api =>
    match api.randomUUID with
    | some uuid => .ok uuid
    | none =>
      match api.randomBytes with
      | some bytes => .ok (bytesToHex bytes)
      | none => .error "Unable to generate secure idea ID".toList

/-- The ordered identifier candidates of `ensureIdeaId` (line 188). -/
def idCandidates (p : JSVal) : List JSVal :=
  [p.get "id", p.get "ideaId", p.get "idea_id", p.get "uuid", p.get "_id"]

/-- The candidate loop of `ensureIdeaId`: skip `null`/`undefined`, return the
first candidate whose `String(...)` is non-empty after trimming. -/
def firstUsableId : List JSVal → Option JStr
  | [] => none
  | c :: rest =>
    match c with
    | .undefined => firstUsableId rest
    | .null => firstUsableId rest
    | other =>
      let s := trimList (jsToString other)
      if s ≠ [] then some s else firstUsableId rest

/-- `ensureIdeaId` (lines 187–197). -/
def ensureIdeaId (crypto : Option CryptoApi) (p : JSVal) : Except JStr JStr :=
  match firstUsableId (idCandidates p) with
  | some s => .ok s
  | none => generateSecureIdeaId crypto

/-! ## Field normalization helpers (`useIdeas.ts` lines 216–296, 372–396) -/

/-- The single-quote character. -/
def singleQuote : Char := Char.ofNat 39

/-- The quote pairs of `sanitizeQuotedText` (lines 375–379), byte-for-byte
from the source: the ASCII double-quote pair twice, then single quotes. -/
def quotePairs : List (Char × Char) :=
  [('"', '"'), ('"', '"'), (singleQuote, singleQuote)]

/-- The loop over quote pairs: strip one fully wrapping pair. -/
def stripPairLoop (t : JStr) : List (Char × Char) → JStr
  | [] => t
  | (s, e) :: rest =>
    if t.head? = some s ∧ t.getLast? = some e ∧ t.length ≥ 2 then
      (t.drop 1).dropLast
    else stripPairLoop t rest

/-- `sanitizeQuotedText` (lines 372–386): non-strings go through
`String(text ?? "")`; strings are trimmed and stripped of one wrapping
quote pair. -/
def sanitizeQuotedText (v : JSVal) : JStr :=
  match v with
  | .str s => stripPairLoop (trimList s) quotePairs
  | .null => []
  | .undefined => []
  | other => jsToString other

/-- `capitalizeFirst` (lines 393–396). -/
def capitalizeFirst : JStr → JStr
  | [] => []
  | c :: cs => c.toUpper :: cs

/-- `normalizeThemeLabel` (lines 388–391): trim, lower-case, capitalize the
first letter; non-strings go through `String(input ?? "")`.  `toUpperCase`
and `toLowerCase` are modelled by `Char.toUpper`/`Char.toLower` (the claims
only involve ASCII). -/
def normalizeThemeLabel (v : JSVal) : JStr :=
  match v with
  | .str s => capitalizeFirst ((trimList s).map Char.toLower)
  | .null => []
  | .undefined => []
  | other => jsToString other

/-- `parseNumericString` (lines 267–272). -/
def parseNumericString (s : JStr) : Option Int :=
  let t := trimList s
  if t = [] then none else jsNumberStr t

/-- The key loop of `extractFromObject` (lines 274–283): first
finite-number-valued entry among `total`, `value`, `amount`. -/
def firstFiniteNum : List JSVal → Option Int
  | [] => none
  | .num n :: _ => some n
  | _ :: rest => firstFiniteNum rest

/-- `extractFromObject` applied to the object `v`. -/
def extractFromObject (v : JSVal) : Option Int :=
  firstFiniteNum [v.get "total", v.get "value", v.get "amount"]

/-- `extractNumber` (lines 254–265); arrays and `Date`s have
`typeof === "object"` and fall into `extractFromObject`, where their
`total`/`value`/`amount` properties are `undefined`. -/
def extractNumber : JSVal → Option Int
  | .num n => some n
  | .str s => parseNumericString s
  | .obj fs => extractFromObject (.obj fs)
  | .arr xs => extractFromObject (.arr xs)
  | .date ms => extractFromObject (.date ms)
  | _ => none

/-- `pickNumericValue` (lines 244–252). -/
def pickNumericValue : List JSVal → Option Int
  | [] => none
  | v :: rest =>
    match extractNumber v with
    | some n => some n
    | none => pickNumericValue rest

/-- The candidate loop of `pickAuthorFromPayload` (lines 230–241). -/
def authorLoop : List JSVal → Option JStr
  | [] => none
  | c :: rest =>
    match c with
    | .undefined => authorLoop rest
    | .null => authorLoop rest
    | .str s =>
      let t := trimList s
      if t ≠ [] then some t else authorLoop rest
    | .num n => some (jsToString (.num n))
    | .bool b => some (jsToString (.bool b))
    | _ => authorLoop rest

/-- `pickAuthorFromPayload` (lines 216–242). -/
def pickAuthorFromPayload (p : JSVal) : Option JStr :=
  authorLoop [p.get "userName", p.get "username", p.get "user_name",
    p.get "author", p.get "owner", p.get "createdBy",
    (p.get "user").get "name", (p.get "user").get "username",
    (p.get "user").get "fullName",
    (p.get "metadata").get "author", (p.get "metadata").get "userName"]

/-- The candidate loop of `pickModelFromPayload` (lines 287–293): skip
non-strings, return the first non-empty trimmed string. -/
def modelLoop : List JSVal → Option JStr
  | [] => none
  | .str s :: rest =>
    let t := trimList s
    if t ≠ [] then some t else modelLoop rest
  | _ :: rest => modelLoop rest

/-- `pickModelFromPayload` (lines 285–295). -/
def pickModelFromPayload (p : JSVal) : Option JStr :=
  modelLoop [p.get "modelUsed", p.get "model_used", p.get "model"]

/-! ## The idea normalizer (`useIdeas.ts` lines 155–185) -/

/-- The canonical `Idea` record. A `timestamp` of `some t` is a valid `Date`
with time value `t`; `none` is an Invalid Date object (still a defined
`Date`, never `null`/`undefined`). -/
structure Idea where
  id : JStr
  theme : JStr
  content : JStr
  context : JStr
  timestamp : Option Int
  isFavorite : Bool
  responseTime : Option Int
  author : Option JStr
  tokens : Option Int
  modelUsed : Option JStr
deriving Repr, DecidableEq

/-- Environment of the normalizer: the timestamp parser environment, the
value of `Date.now()` at the moment of normalization, and the crypto
capabilities. -/
structure NormEnv where
  ts : TsEnv
  now : Int
  crypto : Option CryptoApi

/-- `payload.timestamp ?? payload.createdAt ?? payload.created_at ??
Date.now()` (line 156). -/
def sourceTimestamp (now : Int) (p : JSVal) : JSVal :=
  jsCoalesce (p.get "timestamp")
    (jsCoalesce (p.get "createdAt")
      (jsCoalesce (p.get "created_at") (.num now)))

/-- `mapCommunityIdeaPayload` (lines 155–185).  The only field computation
that can throw is `ensureIdeaId` (via `generateSecureIdeaId`); the `.error`
case propagates that exception. -/
def mapCommunityIdeaPayload (env : NormEnv) (p : JSVal) : Except JStr Idea :=
  match ensureIdeaId env.crypto p with
  | .error e => .error e
  | .ok ideaId =>
    .ok {
      id := ideaId
      theme := normalizeThemeLabel (p.get "theme")
      content := sanitizeQuotedText (p.get "content")
      context := sanitizeQuotedText (p.get "context")
      timestamp := parseTimestamp env.ts (sourceTimestamp env.now p)
      isFavorite := jsTruthy (p.get "isFavorite")
      responseTime := pickNumericValue [p.get "executionTimeMs",
        p.get "execution_time_ms", p.get "responseTime", p.get "durationMs",
        (p.get "metrics").get "executionTime", (p.get "stats").get "executionTime"]
      author := pickAuthorFromPayload p
      tokens := pickNumericValue [p.get "tokens", p.get "tokenCount",
        p.get "tokensUsed", p.get "token_usage", (p.get "usage").get "totalTokens",
        (p.get "tokenStats").get "total", (p.get "stats").get "tokens",
        (p.get "metadata").get "tokens"]
      modelUsed := pickModelFromPayload p }

/-! ## The pagination adapter (`useIdeas.ts` lines 104–153, 398–418) -/

/-- `PaginatedIdeasResponse` (lines 14–20). -/
structure PaginatedIdeasResponse where
  content : List Idea
  totalElements : Int
  totalPages : Int
  size : Int
  number : Int
deriving Repr, DecidableEq

/-- Is the value an array? -/
def isArrVal : JSVal → Bool
  | .arr _ => true
  | _ => false

/-- `isPaginatedResponse` (lines 130–139).  Arrays and `Date`s have
`typeof === "object"` but none of the required properties. -/
def isPaginatedResponse (v : JSVal) : Bool :=
  match v with
  | .obj fs =>
    hasField fs "content" && isArrVal (lookupField fs "content") &&
    hasField fs "totalElements" && hasField fs "totalPages"
  | _ => false

/-- `Number(x) || d`: the default replaces NaN and `0` (both falsy). -/
def numOrDefault (v : JSVal) (d : Int) : Int :=
  match jsNumber v with
  | none => d
  | some 0 => d
  | some n => n

/-- `mapPaginatedResponse` (lines 142–153). -/
def mapPaginatedResponse (env : NormEnv) (v : JSVal) :
    Except JStr PaginatedIdeasResponse :=
  let rawContent := match v.get "content" with | .arr xs => xs | _ => []
  match rawContent.mapM (mapCommunityIdeaPayload env) with
  | .error e => .error e
  | .ok ideas =>
    .ok { content := ideas
          totalElements := numOrDefault (v.get "totalElements") 0
          totalPages := numOrDefault (v.get "totalPages") 1
          size := numOrDefault (v.get "size") (rawContent.length : Int)
          number := numOrDefault (v.get "number") 0 }

/-- The well-known array-valued field names of `extractArrayPayload`. -/
def arrayPayloadKeys : List String := ["data", "items", "results", "history", "ideas"]

/-- First well-known key bound to an array. -/
def firstKnownArrayField (fs : List (String × JSVal)) : List String → Option (List JSVal)
  | [] => none
  | k :: keys =>
    match lookupField fs k with
    | .arr xs => some xs
    | _ => firstKnownArrayField fs keys

/-- First array among `Object.values` (insertion order; the integer-key
reordering of JS property enumeration does not arise in the claims). -/
def firstArrayValue : List (String × JSVal) → Option (List JSVal)
  | [] => none
  | (_, .arr xs) :: _ => some xs
  | _ :: rest => firstArrayValue rest

/-- `extractArrayPayload` (lines 398–418). -/
def extractArrayPayload (raw : JSVal) : List JSVal :=
  match raw with
  | .arr xs => xs
  | .obj fs =>
    match firstKnownArrayField fs arrayPayloadKeys with
    | some xs => xs
    | none =>
      match firstArrayValue fs with
      | some xs => xs
      | none => []
  | _ => []

/-- The shape of `fetchIdeasFromAPI`'s result (lines 104–127): either a
paginated page or a plain mapped array. -/
inductive IdeasResult where
  | page (p : PaginatedIdeasResponse)
  | plain (items : List Idea)
deriving Repr, DecidableEq

/-- The pure JSON-to-result step of `fetchIdeasFromAPI` (lines 117–127):
a detected Spring envelope goes through `mapPaginatedResponse`, anything
else through `extractArrayPayload` and per-item normalization. -/
def adaptIdeasResponse (env : NormEnv) (raw : JSVal) : Except JStr IdeasResult :=
  if isPaginatedResponse raw then
    (mapPaginatedResponse env raw).map IdeasResult.page
  else
    ((extractArrayPayload raw).mapM (mapCommunityIdeaPayload env)).map IdeasResult.plain

/-! ## The credential store (`api.ts` lines 1–62)

`localStorage` is modelled by a record of the two stored values plus an
availability flag: every accessor is wrapped in `try`/`catch`, so an
unavailable storage medium reads as absent and writes as no-ops.  `getItem`
returns the raw string, and the source appends `|| null`, so an empty
stored string also reads as absent. -/

/-- The credential store state. -/
structure TokenStore where
  available : Bool
  access : Option JStr
  refresh : Option JStr
deriving Repr, DecidableEq

/-- `x || null` for an optional string. -/
def orNullStr : Option JStr → Option JStr
  | some [] => none
  | x => x

/-- `getAccessToken` (lines 8–14). -/
def getAccessToken (s : TokenStore) : Option JStr :=
  orNullStr (if s.available then s.access else none)

/-- `getRefreshToken` (lines 16–22). -/
def getRefreshToken (s : TokenStore) : Option JStr :=
  orNullStr (if s.available then s.refresh else none)

/-- `setAuthTokens` (lines 36–39). -/
def setAuthTokens (s : TokenStore) (a r : JStr) : TokenStore :=
  if s.available then { s with access := some a, refresh := some r } else s

/-- `clearAuthTokens` (lines 41–46). -/
def clearAuthTokens (s : TokenStore) : TokenStore :=
  if s.available then { s with access := none, refresh := none } else s

/-! ## Headers and responses -/

/-- A `Headers` object, as an association list (the source uses each header
name with a single consistent spelling, so case normalization is not
needed). -/
abbrev HeaderMap := List (JStr × JStr)

/-- `headers.set(k, v)`. -/
def headerSet (hs : HeaderMap) (k v : JStr) : HeaderMap :=
  match hs with
  | [] => [(k, v)]
  | (k0, v0) :: rest =>
    if k0 = k then (k0, v) :: rest else (k0, v0) :: headerSet rest k v

/-- `headers.has(k)`. -/
def headerHas (hs : HeaderMap) (k : JStr) : Bool :=
  match hs with
  | [] => false
  | (k0, _) :: rest => if k0 = k then true else headerHas rest k

/-- `headers.get(k)`. -/
def headerGet (hs : HeaderMap) (k : JStr) : Option JStr :=
  match hs with
  | [] => none
  | (k0, v0) :: rest => if k0 = k then some v0 else headerGet rest k

/-- A `Response` object: its HTTP status and an identity tag distinguishing
distinct response objects. -/
structure Response where
  status : Nat
  tag : Nat
deriving Repr, DecidableEq

/-- `` `Bearer ${token}` ``. -/
def bearer (tok : JStr) : JStr := "Bearer ".toList ++ tok

/-- The request options relevant to `apiFetch`'s header assembly. -/
structure RequestInit where
  headers : HeaderMap
  method : Option JStr
deriving Repr, DecidableEq

/-- The header assembly of `apiFetch` (lines 154–166): bearer credential when
present, the fixed tunnel-bypass header, defaulted `Accept`, and defaulted
`Content-Type` on mutating methods. -/
def buildApiHeaders (init : RequestInit) (token : Option JStr) : HeaderMap :=
  let h1 := match token with
    | some t => headerSet init.headers "Authorization".toList (bearer t)
    | none => init.headers
  let h2 := headerSet h1 "ngrok-skip-browser-warning".toList "true".toList
  let h3 := if headerHas h2 "Accept".toList then h2
    else headerSet h2 "Accept".toList "application/json".toList
  let mutating := match init.method with
    | some m => ["POST".toList, "PUT".toList, "PATCH".toList].contains m
    | none => false
  if headerHas h3 "Content-Type".toList = false ∧ mutating = true then
    headerSet h3 "Content-Type".toList "application/json".toList
  else h3

/-! ## The refresh protocol (`api.ts` lines 64–151) -/

/-- The environment's answer to the refresh `POST`: the fetch (or the
subsequent body read) throws, or it yields a response with success flag `ok`
and, on success, the new credential pair in its JSON body. -/
inductive RefreshNet where
  | throws
  | respond (ok : Bool) (accessToken refreshToken : JStr)
deriving Repr, DecidableEq

/-- Result of one (non-coalesced) run of the body of `refreshAccessToken`
(lines 73–106): the resolved value, the store afterwards, and how many
refresh network calls the run issued. -/
structure RefreshRun where
  result : Option JStr
  store : TokenStore
  networkCalls : Nat
deriving Repr, DecidableEq

/-- One run of the async body of `refreshAccessToken`: a missing refresh
credential clears the store and resolves `null` without any network call; a
thrown error or a non-success response clears the store and resolves
`null`; a success response persists both new credentials and resolves the
new access credential. -/
def runRefreshBody (s : TokenStore) (net : RefreshNet) : RefreshRun :=
  match getRefreshToken s with
  | none => { result := none, store := clearAuthTokens s, networkCalls := 0 }
  | some _ =>
    match net with
    | .throws => { result := none, store := clearAuthTokens s, networkCalls := 1 }
    | .respond ok a r =>
      if ok then { result := some a, store := setAuthTokens s a r, networkCalls := 1 }
      else { result := none, store := clearAuthTokens s, networkCalls := 1 }

/-- `redirectToLoginIfNeeded` (lines 111–123): `loc` is the current
`location.pathname` (or `none` outside a browser); the result says whether
`location.href` was set to `/login`. -/
def redirectToLoginIfNeeded (loc : Option JStr) : Bool :=
  match loc with
  | none => false
  | some pathname =>
    if pathname = "/login".toList ∨ pathname = "/register".toList then false
    else true

/-- Outcome of `retryRequestWithFreshToken` for one caller. -/
structure RetryOutcome where
  returned : Response
  store : TokenStore
  redirected : Bool
  retried : Bool
  retryHeaders : Option HeaderMap
deriving Repr, DecidableEq

/-- The continuation of `retryRequestWithFreshToken` after
`await refreshAccessToken()` (lines 133–150), given the resolved refresh
outcome `newToken`, the caller's headers, and the response `retryResp` its
retried fetch would produce.  Line 133's `if (!newToken)` is a JS
*truthiness* check: both `null` and an empty-string credential are falsy
and take the failure path (clear, redirect, return the original response,
no retry). -/
def afterRefreshAwait (newToken : Option JStr) (headers : HeaderMap)
    (store : TokenStore) (loc : Option JStr)
    (original retryResp : Response) : RetryOutcome :=
  match newToken with
  | none =>
    { returned := original, store := clearAuthTokens store,
      redirected := redirectToLoginIfNeeded loc, retried := false,
      retryHeaders := none }
  | some [] =>
    { returned := original, store := clearAuthTokens store,
      redirected := redirectToLoginIfNeeded loc, retried := false,
      retryHeaders := none }
  | some tok =>
    let h1 := headerSet headers "Authorization".toList (bearer tok)
    let h2 := headerSet h1 "ngrok-skip-browser-warning".toList "true".toList
    if retryResp.status = 401 ∨ retryResp.status = 403 then
      { returned := retryResp, store := clearAuthTokens store,
        redirected := redirectToLoginIfNeeded loc, retried := true,
        retryHeaders := some h2 }
    else
      { returned := retryResp, store := store, redirected := false,
        retried := true, retryHeaders := some h2 }

/-- `retryRequestWithFreshToken` (lines 125–151) for a single caller: the
refresh body runs to completion and the continuation consumes its result. -/
def retryRequestWithFreshToken (store : TokenStore) (net : RefreshNet)
    (headers : HeaderMap) (loc : Option JStr)
    (original retryResp : Response) : RetryOutcome × Nat :=
  let run := runRefreshBody store net
  (afterRefreshAwait run.result headers run.store loc original retryResp,
   run.networkCalls)

/-- Observable outcome of one `apiFetch` call. -/
structure FetchOutcome where
  returned : Response
  refreshNetworkCalls : Nat
  retried : Bool
  sentHeaders : HeaderMap
  store : TokenStore
  redirected : Bool
deriving Repr, DecidableEq

/-- `apiFetch` (lines 153–184) for a single caller: build headers, issue the
request (the environment supplies its response `firstResp`), and enter the
refresh-and-retry path only when the status is 401/403 and an access
credential was attached. -/
def apiFetch (store : TokenStore) (net : RefreshNet) (init : RequestInit)
    (loc : Option JStr) (firstResp retryResp : Response) : FetchOutcome :=
  let token := getAccessToken store
  let headers := buildApiHeaders init token
  if (firstResp.status = 401 ∨ firstResp.status = 403) ∧ token.isSome then
    let r := retryRequestWithFreshToken store net headers loc firstResp retryResp
    { returned := r.1.returned, refreshNetworkCalls := r.2,
      retried := r.1.retried, sentHeaders := headers,
      store := r.1.store, redirected := r.1.redirected }
  else
    { returned := firstResp, refreshNetworkCalls := 0, retried := false,
      sentHeaders := headers, store := store, redirected := false }

/-! ## The single-flight coalescing state (`api.ts` lines 64–70)

The module-level state is the pair `isRefreshing`/`refreshPromise`.  In the
cooperative event-loop execution model, the segment of `refreshAccessToken`
from the in-flight check (line 68) through the initiation of the refresh
`fetch` (line 81) contains no `await`, so each caller executes it
atomically; `refreshJoin` is that atomic step.  Promises are named by
allocation order (`nextId`), and `networkCalls` counts initiations of the
refresh `POST`. -/

/-- The module-level single-flight state plus instrumentation. -/
structure SfState where
  isRefreshing : Bool
  refreshPromise : Option Nat
  nextId : Nat
  networkCalls : Nat
deriving Repr, DecidableEq

/-- One caller's atomic entry into `refreshAccessToken`: an in-flight
refresh is joined (line 68–70); otherwise a new promise is installed and its
body runs synchronously up to the refresh `fetch`.  When the stored refresh
credential is absent the body resolves `null` synchronously and the
`finally` (lines 102–105) resets the flags before the caller resumes;
otherwise the `fetch` is initiated and the flags stay set while it is in
flight. -/
def refreshJoin (hasRefreshTok : Bool) (s : SfState) : Nat × SfState :=
  match s.refreshPromise, s.isRefreshing with
  | some pid, true => (pid, s)
  | _, _ =>
    if hasRefreshTok then
      (s.nextId,
       { isRefreshing := true, refreshPromise := some s.nextId,
         nextId := s.nextId + 1, networkCalls := s.networkCalls + 1 })
    else
      (s.nextId,
       { isRefreshing := false, refreshPromise := none,
         nextId := s.nextId + 1, networkCalls := s.networkCalls })

/-- Settlement of the in-flight refresh: the `finally` of lines 102–105. -/
def refreshSettle (s : SfState) : SfState :=
  { s with isRefreshing := false, refreshPromise := none }

/-- `n` concurrent callers entering `refreshAccessToken`, in arrival order,
while the in-flight refresh (if any) has not yet settled: the promise each
caller awaits, and the final state. -/
def joinMany (hasRefreshTok : Bool) : Nat → SfState → List Nat × SfState
  | 0, s => ([], s)
  | n + 1, s =>
    let first := refreshJoin hasRefreshTok s
    let rest := joinMany hasRefreshTok n first.2
    (first.1 :: rest.1, rest.2)

/-! ## Concrete fixtures used by witnesses and counterexamples -/

/-- A concrete parser environment: UTC−3 (offset 180 minutes), an engine
whose fallback parse recognizes nothing. -/
def tsEnv0 : TsEnv := { off := 180, platformParse := fun _ => none }

/-- A crypto object exposing only `randomUUID`. -/
def cryptoUuid0 : CryptoApi := { randomUUID := some ['u', '1'], randomBytes := none }

/-- A concrete normalizer environment. -/
def normEnv0 : NormEnv := { ts := tsEnv0, now := 1750000000000, crypto := some cryptoUuid0 }

/-- A store holding only a refresh credential. -/
def store0 : TokenStore := { available := true, access := none, refresh := some ['r'] }

/-- A 401 response. -/
def resp401 : Response := { status := 401, tag := 0 }

/-- A 200 response. -/
def resp200 : Response := { status := 200, tag := 1 }

/-- Empty request options. -/
def init0 : RequestInit := { headers := [], method := none }

/-- A fresh single-flight state. -/
def sf0 : SfState :=
  { isRefreshing := false, refreshPromise := none, nextId := 0, networkCalls := 0 }

/-- Reading back the header just set. -/
theorem headerGet_headerSet_self (hs : HeaderMap) (k v : JStr) :
    headerGet (headerSet hs k v) k = some v := by
  induction hs with
  | nil => simp [headerSet, headerGet]
  | cons kv rest ih =>
    obtain ⟨k0, v0⟩ := kv
    by_cases h : k0 = k <;> simp [headerSet, headerGet, h, ih]

/-- Setting one header leaves the others unchanged. -/
theorem headerGet_headerSet_ne (hs : HeaderMap) (k v k2 : JStr) (h : k2 ≠ k) :
    headerGet (headerSet hs k v) k2 = headerGet hs k2 := by
  induction hs with
  | nil =>
    simp only [headerSet, headerGet]
    rw [if_neg (fun he => h he.symm)]
  | cons kv rest ih =>
    obtain ⟨k0, v0⟩ := kv
    by_cases h0 : k0 = k
    · subst h0
      simp only [headerSet, if_pos rfl, headerGet]
      rw [if_neg (fun he => h he.symm), if_neg (fun he => h he.symm)]
    · simp only [headerSet, if_neg h0, headerGet]
      by_cases h2 : k0 = k2
      · rw [if_pos h2, if_pos h2]
      · rw [if_neg h2, if_neg h2, ih]

/-- While a refresh is in flight (`isRefreshing` set, `refreshPromise`
present), every further caller joins that same promise and the state is
unchanged: no second refresh is started. -/
theorem joinMany_inflight (tokPresent : Bool) (n : Nat) (s : SfState) (pid : Nat)
    (h1 : s.isRefreshing = true) (h2 : s.refreshPromise = some pid) :
    joinMany tokPresent n s = (List.replicate n pid, s) := by
  induction n with
  | zero => simp [joinMany]
  | succ k ih =>
    have hj : refreshJoin tokPresent s = (pid, s) := by
      unfold refreshJoin
      rw [h2, h1]
    simp [joinMany, hj, ih, List.replicate]

/-! ## Claim C1 -/

/-- Claim C1: with a valid refresh credential stored, when `n ≥ 2` callers
of `apiFetch` each receive a 401/403 and enter `refreshAccessToken`
concurrently (i.e. all of them before the in-flight refresh settles — the
join step is atomic because lines 68–88 of `api.ts` contain no `await`),
exactly one refresh network call is issued, every caller awaits the same
promise (`s0.nextId`, the single one allocated), that promise resolves to
the refreshed access credential, and each caller then retries its original
request once with the same `Bearer` credential.  The refreshed credential
must be non-empty (`htokne`): line 133's truthiness check sends an
empty-string credential down the no-retry failure path instead. -/
theorem single_flight_refresh
    (n : Nat) (hn : 2 ≤ n) (s0 : SfState)
    (h0r : s0.isRefreshing = false) (h0c : s0.networkCalls = 0)
    (store : TokenStore) (htok : (getRefreshToken store).isSome = true)
    (net : RefreshNet) (tok tokR : JStr)
    (hnet : net = .respond true tok tokR) (htokne : tok ≠ [])
    (headersOf : Nat → HeaderMap) (loc : Option JStr)
    (origs retrys : Nat → Response) :
    (joinMany (getRefreshToken store).isSome n s0).2.networkCalls = 1 ∧
    (joinMany (getRefreshToken store).isSome n s0).1 = List.replicate n s0.nextId ∧
    (runRefreshBody store net).result = some tok ∧
    (∀ i, i < n →
      (afterRefreshAwait (runRefreshBody store net).result (headersOf i)
        (runRefreshBody store net).store loc (origs i) (retrys i)).retried = true ∧
      headerGet ((afterRefreshAwait (runRefreshBody store net).result (headersOf i)
        (runRefreshBody store net).store loc (origs i) (retrys i)).retryHeaders.getD [])
        "Authorization".toList = some (bearer tok)) := by
  obtain ⟨rt, hrt⟩ := Option.isSome_iff_exists.mp htok
  obtain ⟨c0, cs0, rfl⟩ : ∃ c0 cs0, tok = c0 :: cs0 := by
    cases tok with
    | nil => exact absurd rfl htokne
    | cons c0 cs0 => exact ⟨c0, cs0, rfl⟩
  have hres : (runRefreshBody store net).result = some (c0 :: cs0) := by
    subst hnet
    simp [runRefreshBody, hrt]
  obtain ⟨sr, sp, sn, sc⟩ := s0
  simp only at h0r h0c
  subst h0r h0c
  obtain ⟨k, rfl⟩ : ∃ k, n = k + 1 := ⟨n - 1, by omega⟩
  have hjoin1 : refreshJoin true ⟨false, sp, sn, 0⟩ =
      (sn, ⟨true, some sn, sn + 1, 1⟩) := by
    cases sp <;> rfl
  have hmain : joinMany true (k + 1) ⟨false, sp, sn, 0⟩ =
      (sn :: List.replicate k sn, ⟨true, some sn, sn + 1, 1⟩) := by
    unfold joinMany
    simp only [hjoin1, joinMany_inflight true k ⟨true, some sn, sn + 1, 1⟩ sn rfl rfl]
  rw [htok]
  refine ⟨?_, ?_, hres, ?_⟩
  · rw [hmain]
  · rw [hmain]
    simp [List.replicate]
  · intro i _
    rw [hres]
    simp only [afterRefreshAwait]
    have hga : ∀ hs : HeaderMap,
        headerGet (headerSet (headerSet hs "Authorization".toList (bearer (c0 :: cs0)))
          "ngrok-skip-browser-warning".toList "true".toList) "Authorization".toList =
        some (bearer (c0 :: cs0)) := by
      intro hs
      rw [headerGet_headerSet_ne
        (headerSet hs "Authorization".toList (bearer (c0 :: cs0)))
        "ngrok-skip-browser-warning".toList "true".toList "Authorization".toList
        (by decide)]
      exact headerGet_headerSet_self hs "Authorization".toList (bearer (c0 :: cs0))
    constructor
    · split <;> rfl
    · split <;> simp only [Option.getD_some] <;> exact hga _

/-- Witness for C1: two concurrent callers, a fresh single-flight state, a
stored refresh credential, a refresh endpoint answering success. -/
theorem single_flight_refresh_witness :
    (joinMany (getRefreshToken store0).isSome 2 sf0).2.networkCalls = 1 ∧
    (joinMany (getRefreshToken store0).isSome 2 sf0).1 = List.replicate 2 sf0.nextId ∧
    (runRefreshBody store0 (.respond true ['t'] ['s'])).result = some ['t'] := by
  have h := single_flight_refresh 2 (by decide) sf0 rfl rfl store0 (by decide)
    (.respond true ['t'] ['s']) ['t'] ['s'] rfl (by decide) (fun _ => []) none
    (fun _ => resp401) (fun _ => resp200)
  exact ⟨h.1, h.2.1, h.2.2.1⟩

/-! ## Claim C9 -/

/-- Claim C9: a request issued without a stored access credential has its
401/403 (indeed, any) response returned to the caller as-is — no refresh
network call, no retry; and the refresh-and-retry path is entered only when
the failing request had an access credential attached. -/
theorem apiFetch_no_token_passthrough
    (store : TokenStore) (net : RefreshNet) (init : RequestInit)
    (loc : Option JStr) (firstResp retryResp : Response)
    (htok : getAccessToken store = none) :
    (apiFetch store net init loc firstResp retryResp).returned = firstResp ∧
    (apiFetch store net init loc firstResp retryResp).refreshNetworkCalls = 0 ∧
    (apiFetch store net init loc firstResp retryResp).retried = false ∧
    (∀ st : TokenStore,
      (apiFetch st net init loc firstResp retryResp).retried = true →
      (getAccessToken st).isSome) := by
  refine ⟨?_, ?_, ?_, ?_⟩
  · simp [apiFetch, htok]
  · simp [apiFetch, htok]
  · simp [apiFetch, htok]
  · intro st h
    by_cases hst : (getAccessToken st).isSome
    · exact hst
    · rw [Option.not_isSome_iff_eq_none] at hst
      simp [apiFetch, hst] at h

/-- Witness for C9 at concrete inputs: no stored access credential, a 401
first response. -/
theorem apiFetch_no_token_passthrough_witness :
    getAccessToken store0 = none ∧
    (apiFetch store0 .throws init0 none resp401 resp200).returned = resp401 ∧
    (apiFetch store0 .throws init0 none resp401 resp200).refreshNetworkCalls = 0 ∧
    (apiFetch store0 .throws init0 none resp401 resp200).retried = false :=
  ⟨by decide,
   (apiFetch_no_token_passthrough store0 .throws init0 none resp401 resp200 (by decide)).1,
   (apiFetch_no_token_passthrough store0 .throws init0 none resp401 resp200 (by decide)).2.1,
   (apiFetch_no_token_passthrough store0 .throws init0 none resp401 resp200 (by decide)).2.2.1⟩

/-! ## Claim C4 -/

/-- Claim C4 (counterexample): the claim says a numeric input exactly equal
to 1×10¹² is treated as milliseconds; the code's branch is `input > 1e12 ?
input : input * 1000`, so 1×10¹² is treated as Unix seconds and parses to
1×10¹⁵ ms, not 1×10¹² ms. -/
theorem parseTimestamp_at_threshold_counterexample :
    parseTimestamp tsEnv0 (.num 1000000000000) = some 1000000000000000 ∧
    parseTimestamp tsEnv0 (.num 1000000000000) ≠ some 1000000000000 := by
  constructor
  · decide
  · decide

/-- Claim C4 (amended): a numeric timestamp is treated as Unix seconds when
it is less than **or equal to** 1×10¹² (within the representable `Date`
range), and as Unix milliseconds only when strictly above the threshold. -/
theorem parseTimestamp_numeric_threshold (env : TsEnv) (n : Int)
    (hlo : -8640000000000 ≤ n) :
    (n ≤ tsThreshold → parseTimestamp env (.num n) = some (n * 1000)) ∧
    (tsThreshold < n → n ≤ clipBound → parseTimestamp env (.num n) = some n) := by
  have hred : parseTimestamp env (.num n) =
      jsClipInt (if n > tsThreshold then n else n * 1000) := rfl
  constructor
  · intro h
    unfold tsThreshold at h
    have hngt : ¬ (n > (1000000000000 : Int)) := by omega
    rw [hred]
    simp only [jsClipInt, tsThreshold, clipBound, if_neg hngt]
    rw [if_pos ⟨by omega, by omega⟩]
  · intro h1 h2
    unfold tsThreshold at h1
    unfold clipBound at h2
    have hgt : n > (1000000000000 : Int) := by omega
    rw [hred]
    simp only [jsClipInt, tsThreshold, clipBound, if_pos hgt]
    rw [if_pos ⟨by omega, by omega⟩]

/-- Witness for the amended C4: 2×10⁹ (seconds, below the threshold) and
2×10¹² (milliseconds, above it). -/
theorem parseTimestamp_numeric_threshold_witness :
    parseTimestamp tsEnv0 (.num 2000000000) = some 2000000000000 ∧
    parseTimestamp tsEnv0 (.num 2000000000000) = some 2000000000000 :=
  ⟨(parseTimestamp_numeric_threshold tsEnv0 2000000000 (by decide)).1 (by decide),
   (parseTimestamp_numeric_threshold tsEnv0 2000000000000 (by decide)).2
     (by decide) (by decide)⟩

/-! ## Claim C10 -/

/-- Is a value `null` or `undefined` (the values skipped by `??`)? -/
def isNullOrUndef (v : JSVal) : Prop := v = .null ∨ v = .undefined

/-- Claim C10: when all timestamp candidate fields (`timestamp`,
`createdAt`, `created_at`) are `null` or `undefined`, the normalizer's
source timestamp is `Date.now()` and the produced record's timestamp is the
current time (`Date.now()` is above the seconds/millis threshold for any
present-day clock); the epoch default arises only for present but
unrecognizable values, as the last conjunct shows for strings that match no
recognized shape and fail the engine fallback parse. -/
theorem normalizer_timestamp_defaults_to_now
    (env : NormEnv) (p : JSVal)
    (h1 : isNullOrUndef (p.get "timestamp"))
    (h2 : isNullOrUndef (p.get "createdAt"))
    (h3 : isNullOrUndef (p.get "created_at"))
    (hnow : tsThreshold < env.now) (hclip : env.now ≤ clipBound) :
    sourceTimestamp env.now p = .num env.now ∧
    parseTimestamp env.ts (sourceTimestamp env.now p) = some env.now ∧
    (∀ idea, mapCommunityIdeaPayload env p = .ok idea →
      idea.timestamp = some env.now) ∧
    (∀ s, isBareDateRe (jsReplaceOnce ',' '.' (trimList s)) = false →
      isBareDateRe ((jsReplaceOnce ',' '.' (trimList s)).take 10) = false →
      env.ts.platformParse (jsReplaceOnce ',' '.' (trimList s)) = none →
      parseTimestamp env.ts (.str s) = some 0) := by
  have hsrc : sourceTimestamp env.now p = .num env.now := by
    unfold sourceTimestamp
    rcases h1 with h1 | h1 <;> rcases h2 with h2 | h2 <;> rcases h3 with h3 | h3 <;>
      rw [h1, h2, h3] <;> rfl
  have hgt : env.now > tsThreshold := hnow
  have hneg : -clipBound ≤ env.now := by
    unfold clipBound
    unfold tsThreshold at hnow
    omega
  have hparse : parseTimestamp env.ts (.num env.now) = some env.now := by
    have hred : parseTimestamp env.ts (.num env.now) =
        jsClipInt (if env.now > tsThreshold then env.now else env.now * 1000) := rfl
    rw [hred, if_pos hgt]
    unfold jsClipInt
    rw [if_pos ⟨hneg, hclip⟩]
  refine ⟨hsrc, by rw [hsrc]; exact hparse, ?_, ?_⟩
  · intro idea hok
    unfold mapCommunityIdeaPayload at hok
    cases hid : ensureIdeaId env.crypto p with
    | error e =>
      rw [hid] at hok
      exact absurd hok (by simp)
    | ok v =>
      rw [hid] at hok
      simp only [Except.ok.injEq] at hok
      rw [← hok]
      show parseTimestamp env.ts (sourceTimestamp env.now p) = some env.now
      rw [hsrc]
      exact hparse
  · intro s hb1 hb2 hpp
    show parseTimestampFromString env.ts s = some 0
    simp only [parseTimestampFromString]
    rw [if_neg (by simp [hb1])]
    rw [if_neg (by simp [hb2])]
    rw [hpp]

/-- Witness for C10: an empty payload object, a present-day clock, and the
epoch default on the unrecognized string `"tomorrow"`. -/
theorem normalizer_timestamp_defaults_to_now_witness :
    sourceTimestamp normEnv0.now (.obj []) = .num 1750000000000 ∧
    parseTimestamp normEnv0.ts (sourceTimestamp normEnv0.now (.obj [])) =
      some 1750000000000 ∧
    parseTimestamp tsEnv0 (.str "tomorrow".toList) = some 0 := by
  have h := normalizer_timestamp_defaults_to_now normEnv0 (.obj [])
    (Or.inr rfl) (Or.inr rfl) (Or.inr rfl) (by decide) (by decide)
  exact ⟨h.1, h.2.1, h.2.2.2 "tomorrow".toList (by decide) (by decide) rfl⟩

/-! ## Claims C6 and C7 -/

/-- An envelope whose `totalPages` is present but non-numeric. -/
def envelope6 : JSVal := .obj [("content", .arr []), ("totalElements", .num 42),
  ("totalPages", .str "n/a".toList), ("size", .num 10), ("number", .num 0)]

/-- Reduction of `mapPaginatedResponse` on an object whose `content` is an
array whose per-item normalization succeeds. -/
theorem mapPaginatedResponse_reduce (env : NormEnv) (fs : List (String × JSVal))
    (ps : List JSVal) (ideas : List Idea)
    (hget : lookupField fs "content" = .arr ps)
    (hmap : ps.mapM (mapCommunityIdeaPayload env) = .ok ideas) :
    mapPaginatedResponse env (.obj fs) = .ok
      { content := ideas,
        totalElements := numOrDefault (lookupField fs "totalElements") 0,
        totalPages := numOrDefault (lookupField fs "totalPages") 1,
        size := numOrDefault (lookupField fs "size") (ps.length : Int),
        number := numOrDefault (lookupField fs "number") 0 } := by
  simp only [mapPaginatedResponse, JSVal.get, hget, hmap]

/-- Claim C6 (counterexample): on the envelope with `totalElements = 42`,
`size = 10` and the non-numeric `totalPages` `"n/a"`, the claim demands
`totalPages = max(1, ceil(42 / 10)) = 5`; the adapter instead substitutes
the fixed constant 1. -/
theorem totalPages_not_recomputed_counterexample :
    mapPaginatedResponse normEnv0 envelope6 =
      .ok { content := [], totalElements := 42, totalPages := 1,
            size := 10, number := 0 } ∧
    (1 : Int) ≠ max 1 ((42 + 10 - 1) / 10) := by
  constructor
  · rfl
  · decide

/-- Claim C6 (amended): when a detected envelope's `totalPages` is
non-numeric (or zero — `Number(x) || 1` treats both as falsy), the adapter
substitutes the fixed default 1; the defaulted totals are constants (0 for
`totalElements`, 0 for `number`), not values recomputed from
`totalElements` and `size`; only the defaulted `size` is derived from the
data, as the content length. -/
theorem mapPaginated_totalPages_default
    (env : NormEnv) (v : JSVal)
    (htp : jsNumber (v.get "totalPages") = none ∨
      jsNumber (v.get "totalPages") = some 0) :
    ∀ page, mapPaginatedResponse env v = .ok page → page.totalPages = 1 := by
  intro page hok
  simp only [mapPaginatedResponse] at hok
  cases hm : (match v.get "content" with | .arr xs => xs | _ => ([] : List JSVal)).mapM
      (mapCommunityIdeaPayload env) with
  | error e =>
    rw [hm] at hok
    exact absurd hok (by simp)
  | ok ideas =>
    rw [hm] at hok
    simp only [Except.ok.injEq] at hok
    rw [← hok]
    show numOrDefault (v.get "totalPages") 1 = 1
    unfold numOrDefault
    rcases htp with h | h
    · rw [h]
    · rw [h]
      decide

/-- Witness for the amended C6 at the concrete envelope. -/
theorem mapPaginated_totalPages_default_witness :
    mapPaginatedResponse normEnv0 envelope6 =
      .ok { content := [], totalElements := 42, totalPages := 1,
            size := 10, number := 0 } ∧
    ({ content := [], totalElements := 42, totalPages := 1, size := 10,
       number := 0 } : PaginatedIdeasResponse).totalPages = 1 := by
  have hok : mapPaginatedResponse normEnv0 envelope6 =
      .ok { content := [], totalElements := 42, totalPages := 1,
            size := 10, number := 0 } := by rfl
  exact ⟨hok, mapPaginated_totalPages_default normEnv0 envelope6
    (Or.inl (by decide)) _ hok⟩

/-- Is the adapter's result a page envelope? -/
def isPageResult : Except JStr IdeasResult → Bool
  | .ok (.page _) => true
  | _ => false

/-- A bare array response with one payload. -/
def bareArr7 : JSVal := .arr [.obj [("id", .str ['a'])]]

/-- Claim C7 (counterexample): for a bare array response the adapter does
not return a synthesized page (with `totalPages = 1` or any other totals);
it returns the mapped bare array itself. -/
theorem bare_array_no_page_counterexample :
    adaptIdeasResponse normEnv0 bareArr7 = .ok (.plain
      [{ id := ['a'], theme := [], content := [], context := [],
         timestamp := some 1750000000000, isFavorite := false,
         responseTime := none, author := none, tokens := none,
         modelUsed := none }]) ∧
    isPageResult (adaptIdeasResponse normEnv0 bareArr7) = false := by
  constructor
  · rfl
  · rfl

/-- Claim C7 (amended): the adapter returns the envelope's four numeric
fields verbatim with the content mapped through the normalizer; a bare
array yields the mapped bare array itself (no page is synthesized). -/
theorem pagination_adapter_shapes
    (env : NormEnv) (ps : List JSVal) (ideas : List Idea)
    (hmap : ps.mapM (mapCommunityIdeaPayload env) = .ok ideas) :
    adaptIdeasResponse env (.obj [("content", .arr ps), ("totalElements", .num 42),
      ("totalPages", .num 5), ("size", .num 10), ("number", .num 0)]) =
      .ok (.page { content := ideas, totalElements := 42, totalPages := 5,
                   size := 10, number := 0 }) ∧
    adaptIdeasResponse env (.arr ps) = .ok (.plain ideas) := by
  constructor
  · have hpag : isPaginatedResponse (.obj [("content", .arr ps),
        ("totalElements", .num 42), ("totalPages", .num 5), ("size", .num 10),
        ("number", .num 0)]) = true := rfl
    have hmp := mapPaginatedResponse_reduce env [("content", .arr ps),
      ("totalElements", .num 42), ("totalPages", .num 5), ("size", .num 10),
      ("number", .num 0)] ps ideas rfl hmap
    simp only [adaptIdeasResponse, hpag, if_true, hmp, Except.map]
    rfl
  · have hpag : isPaginatedResponse (.arr ps) = false := rfl
    simp only [adaptIdeasResponse, hpag, Bool.false_eq_true, if_false,
      extractArrayPayload, hmap, Except.map]

/-- Witness for the amended C7 at a one-element payload list. -/
theorem pagination_adapter_shapes_witness :
    adaptIdeasResponse normEnv0 (.obj [("content", .arr [.obj [("id", .str ['a'])]]),
      ("totalElements", .num 42), ("totalPages", .num 5), ("size", .num 10),
      ("number", .num 0)]) =
    .ok (.page { content := [{ id := ['a'], theme := [], content := [],
                               context := [], timestamp := some 1750000000000,
                               isFavorite := false, responseTime := none,
                               author := none, tokens := none,
                               modelUsed := none }],
                 totalElements := 42, totalPages := 5, size := 10,
                 number := 0 }) :=
  (pagination_adapter_shapes normEnv0 [.obj [("id", .str ['a'])]]
    [{ id := ['a'], theme := [], content := [], context := [],
       timestamp := some 1750000000000, isFavorite := false,
       responseTime := none, author := none, tokens := none,
       modelUsed := none }] (by rfl)).1

/-! ## Claim C8 -/

/-- The raw payload of the normalization scenario. -/
def payload8 : JSVal := .obj [("createdAt", .str "2024-03-01".toList),
  ("content", .str "\"Hello\"".toList), ("theme", .str "  MARKETING  ".toList)]

/-- Claim C8: normalizing `{createdAt: "2024-03-01", content: "\"Hello\"",
theme: "  MARKETING  "}` yields local midnight of 2024-03-01 (the UTC
midnight value 1709251200000 ms shifted by the local offset), content
`"Hello"` (wrapping quote pair stripped), theme `"Marketing"` and
`isFavorite = false`.  The payload has no identifier, so the id is the
platform UUID. -/
theorem normalize_scenario_payload8
    (env : NormEnv) (u : JStr)
    (hcrypto : env.crypto = some { randomUUID := some u, randomBytes := none })
    (ho1 : -1440 ≤ env.ts.off) (ho2 : env.ts.off ≤ 1440) :
    mapCommunityIdeaPayload env payload8 = .ok
      { id := u, theme := "Marketing".toList, content := "Hello".toList,
        context := [], timestamp := some (1709251200000 + env.ts.off * 60000),
        isFavorite := false, responseTime := none, author := none,
        tokens := none, modelUsed := none } := by
  have hid : ensureIdeaId env.crypto payload8 = .ok u := by
    rw [show ensureIdeaId env.crypto payload8 = generateSecureIdeaId env.crypto
      from rfl, hcrypto]
    rfl
  have hts : parseTimestamp env.ts (.str "2024-03-01".toList) =
      some (1709251200000 + env.ts.off * 60000) := by
    show jsClipInt (1709251200000 + env.ts.off * 60000) =
      some (1709251200000 + env.ts.off * 60000)
    unfold jsClipInt clipBound
    rw [if_pos ⟨by omega, by omega⟩]
  simp only [mapCommunityIdeaPayload, hid]
  rw [show sourceTimestamp env.now payload8 = .str "2024-03-01".toList from rfl, hts]
  rfl

/-- Witness for C8 in the concrete environment (offset 180 minutes, platform
UUID `"u1"`). -/
theorem normalize_scenario_payload8_witness :
    mapCommunityIdeaPayload normEnv0 payload8 = .ok
      { id := ['u', '1'], theme := "Marketing".toList, content := "Hello".toList,
        context := [], timestamp := some 1709262000000, isFavorite := false,
        responseTime := none, author := none, tokens := none,
        modelUsed := none } := by
  have h := normalize_scenario_payload8 normEnv0 ['u', '1'] rfl (by decide) (by decide)
  rw [h]
  rfl

/-! ## Claim C3 -/

/-- A candidate value the `ensureIdeaId` loop rejects: `null`, `undefined`,
or stringifying-and-trimming to the empty string. -/
def idCandidateUnusable (v : JSVal) : Prop :=
  v = .null ∨ v = .undefined ∨ trimList (jsToString v) = []

/-- Does the crypto environment expose a secure randomness source? -/
def cryptoHasSource : Option CryptoApi → Prop
  | none => False
  | some api => api.randomUUID.isSome = true ∨ api.randomBytes.isSome = true

/-- A value returned by the candidate loop is never empty. -/
theorem firstUsableId_ok (l : List JSVal) :
    ∀ s, firstUsableId l = some s → s ≠ [] := by
  induction l with
  | nil =>
    intro s h
    exact absurd h (by simp [firstUsableId])
  | cons c rest ih =>
    intro s h
    cases c with
    | undefined => exact ih s h
    | null => exact ih s h
    | bool b => ?_
    | num n => ?_
    | str t => ?_
    | date ms => ?_
    | arr xs => ?_
    | obj fs => ?_
    all_goals
      simp only [firstUsableId] at h
      split at h
      next hcond =>
        injection h with h2
        rw [← h2]
        exact hcond
      next => exact ih s h

/-- When every candidate is unusable the loop yields nothing. -/
theorem firstUsableId_none (l : List JSVal)
    (hall : ∀ v ∈ l, idCandidateUnusable v) : firstUsableId l = none := by
  induction l with
  | nil => rfl
  | cons c rest ih =>
    have hc := hall c (List.mem_cons_self c rest)
    have hrest := ih (fun v hv => hall v (List.mem_cons_of_mem c hv))
    rcases hc with h | h | h
    · subst h
      exact hrest
    · subst h
      exact hrest
    · cases c with
      | undefined => exact hrest
      | null => exact hrest
      | bool b => ?_
      | num n => ?_
      | str t => ?_
      | date ms => ?_
      | arr xs => ?_
      | obj fs => ?_
      all_goals
        simp only [firstUsableId]
        rw [if_neg (fun hne => hne h)]
        exact hrest

/-- `hexDigitChar` is injective on nibble values. -/
theorem hexDigitChar_inj : ∀ a b : Fin 16,
    hexDigitChar a.val = hexDigitChar b.val → a = b := by decide

set_option maxRecDepth 4096 in
/-- The hex encoding of a byte is the pair of its nibbles. -/
theorem byteToHex_eq_pair : ∀ v : Fin 256,
    byteToHex v.val = [hexDigitChar (v.val / 16), hexDigitChar (v.val % 16)] := by
  decide

/-- The hex encoding of a byte has exactly two characters. -/
theorem byteToHex_len (v : Fin 256) : (byteToHex v.val).length = 2 := by
  rw [byteToHex_eq_pair v]
  rfl

/-- The hex encoding is injective on bytes. -/
theorem byteToHex_inj (v w : Fin 256) (h : byteToHex v.val = byteToHex w.val) :
    v = w := by
  rw [byteToHex_eq_pair v, byteToHex_eq_pair w] at h
  simp only [List.cons.injEq, and_true] at h
  have h1 := hexDigitChar_inj ⟨v.val / 16, by omega⟩ ⟨w.val / 16, by omega⟩ h.1
  have h2 := hexDigitChar_inj ⟨v.val % 16, by omega⟩ ⟨w.val % 16, by omega⟩ h.2
  have e1 : v.val / 16 = w.val / 16 := congrArg Fin.val h1
  have e2 : v.val % 16 = w.val % 16 := congrArg Fin.val h2
  have : v.val = w.val := by omega
  exact Fin.ext this

/-- Concatenating fixed-width pieces is injective. -/
theorem joinPieces_inj (l1 : List JStr) :
    ∀ l2 : List JStr, (∀ x ∈ l1, x.length = 2) → (∀ x ∈ l2, x.length = 2) →
    l1.length = l2.length →
    l1.foldr (· ++ ·) [] = l2.foldr (· ++ ·) [] → l1 = l2 := by
  induction l1 with
  | nil =>
    intro l2 _ _ hlen _
    cases l2 with
    | nil => rfl
    | cons b bs => exact absurd hlen (by simp)
  | cons a as ih =>
    intro l2 h1 h2 hlen heq
    cases l2 with
    | nil => exact absurd hlen (by simp)
    | cons b bs =>
      have ha : a.length = 2 := h1 a (List.mem_cons_self a as)
      have hb : b.length = 2 := h2 b (List.mem_cons_self b bs)
      simp only [List.foldr_cons] at heq
      obtain ⟨hab, hrest⟩ := List.append_inj heq (ha.trans hb.symm)
      rw [hab, ih bs (fun x hx => h1 x (List.mem_cons_of_mem a hx))
        (fun x hx => h2 x (List.mem_cons_of_mem b hx)) (by simpa using hlen) hrest]

/-- The 16-byte hex identifier determines the bytes: distinct entropy yields
distinct synthesized identifiers. -/
theorem bytesToHex_inj (b1 b2 : Fin 16 → Fin 256)
    (h : bytesToHex b1 = bytesToHex b2) : b1 = b2 := by
  unfold bytesToHex at h
  have hpieces := joinPieces_inj _ _
    (by intro x hx
        obtain ⟨i, hi⟩ := (List.mem_ofFn _ _).mp hx
        rw [← hi]
        exact byteToHex_len (b1 i))
    (by intro x hx
        obtain ⟨i, hi⟩ := (List.mem_ofFn _ _).mp hx
        rw [← hi]
        exact byteToHex_len (b2 i))
    (by simp) h
  funext i
  have := congrFun (List.ofFn_injective hpieces) i
  exact byteToHex_inj (b1 i) (b2 i) this

/-- A synthesized hex identifier is never empty. -/
theorem bytesToHex_ne_nil (b : Fin 16 → Fin 256) : bytesToHex b ≠ [] := by
  unfold bytesToHex
  rw [List.ofFn_succ]
  intro h
  simp only [List.foldr_cons, List.append_eq_nil] at h
  have := byteToHex_len (b 0)
  rw [h.1] at this
  exact absurd this (by simp)

/-- Identifier generation throws exactly when no secure randomness source
exists. -/
theorem generateSecureIdeaId_error_iff (c : Option CryptoApi) :
    (∃ e, generateSecureIdeaId c = .error e) ↔ ¬ cryptoHasSource c := by
  cases c with
  | none => simp [generateSecureIdeaId, cryptoHasSource]
  | some api =>
    cases hu : api.randomUUID with
    | some u => simp [generateSecureIdeaId, cryptoHasSource, hu]
    | none =>
      cases hb : api.randomBytes with
      | some bytes => simp [generateSecureIdeaId, cryptoHasSource, hu, hb]
      | none => simp [generateSecureIdeaId, cryptoHasSource, hu, hb]

/-- Every identifier `ensureIdeaId` returns is non-empty (platform UUIDs are
non-empty, which `huuid` records). -/
theorem ensureIdeaId_ok_ne_nil (c : Option CryptoApi) (p : JSVal)
    (huuid : ∀ api u, c = some api → api.randomUUID = some u → u ≠ []) :
    ∀ s, ensureIdeaId c p = .ok s → s ≠ [] := by
  intro s h
  unfold ensureIdeaId at h
  cases hf : firstUsableId (idCandidates p) with
  | some t =>
    rw [hf] at h
    injection h with h2
    rw [← h2]
    exact firstUsableId_ok _ t hf
  | none =>
    rw [hf] at h
    cases c with
    | none => exact absurd h (by simp [generateSecureIdeaId])
    | some api =>
      cases hu : api.randomUUID with
      | some u =>
        simp only [generateSecureIdeaId, hu, Except.ok.injEq] at h
        rw [← h]
        exact huuid api u rfl hu
      | none =>
        cases hb : api.randomBytes with
        | some bytes =>
          simp only [generateSecureIdeaId, hu, hb, Except.ok.injEq] at h
          rw [← h]
          exact bytesToHex_ne_nil bytes
        | none => simp [generateSecureIdeaId, hu, hb] at h

/-- Claim C3: every normalized record has a non-empty id and a `Date`
timestamp computed by the total `parseTimestamp` (never `null`/`undefined`);
when every identifier candidate is `null`, `undefined` or trims to the
empty string, the id is freshly synthesized by `generateSecureIdeaId`;
synthesis fails only when no secure randomness source exists; and distinct
random bytes yield distinct synthesized identifiers (uniqueness per call
given fresh entropy). -/
theorem normalizer_id_invariant
    (env : NormEnv) (p : JSVal)
    (hall : ∀ v ∈ idCandidates p, idCandidateUnusable v)
    (huuid : ∀ api u, env.crypto = some api → api.randomUUID = some u → u ≠ []) :
    ensureIdeaId env.crypto p = generateSecureIdeaId env.crypto ∧
    ((∃ e, generateSecureIdeaId env.crypto = .error e) ↔
      ¬ cryptoHasSource env.crypto) ∧
    (∀ s, ensureIdeaId env.crypto p = .ok s → s ≠ []) ∧
    (∀ q idea, mapCommunityIdeaPayload env q = .ok idea →
      idea.id ≠ [] ∧
      idea.timestamp = parseTimestamp env.ts (sourceTimestamp env.now q)) ∧
    (∀ b1 b2 : Fin 16 → Fin 256, bytesToHex b1 = bytesToHex b2 → b1 = b2) := by
  refine ⟨?_, generateSecureIdeaId_error_iff env.crypto,
    ensureIdeaId_ok_ne_nil env.crypto p huuid, ?_, bytesToHex_inj⟩
  · unfold ensureIdeaId
    rw [firstUsableId_none _ hall]
  · intro q idea hok
    unfold mapCommunityIdeaPayload at hok
    cases hid : ensureIdeaId env.crypto q with
    | error e =>
      rw [hid] at hok
      exact absurd hok (by simp)
    | ok v =>
      rw [hid] at hok
      simp only [Except.ok.injEq] at hok
      rw [← hok]
      exact ⟨ensureIdeaId_ok_ne_nil env.crypto q huuid v hid, rfl⟩

/-- Witness for C3: an empty payload (all candidates `undefined`) in the
concrete environment whose `randomUUID` yields `"u1"`. -/
theorem normalizer_id_invariant_witness :
    ensureIdeaId normEnv0.crypto (.obj []) = generateSecureIdeaId normEnv0.crypto ∧
    ensureIdeaId normEnv0.crypto (.obj []) = .ok ['u', '1'] ∧
    (['u', '1'] : JStr) ≠ [] := by
  have hall : ∀ v ∈ idCandidates (.obj []), idCandidateUnusable v := by
    intro v hv
    simp only [idCandidates, JSVal.get, lookupField, List.mem_cons,
      List.not_mem_nil, or_false] at hv
    rcases hv with h | h | h | h | h <;> exact Or.inr (Or.inl h)
  have huuid : ∀ api u, normEnv0.crypto = some api →
      api.randomUUID = some u → u ≠ [] := by
    intro api u ha hu
    have ha2 : cryptoUuid0 = api := Option.some.inj ha
    rw [← ha2] at hu
    have hu2 : some ['u', '1'] = some u := hu
    rw [← Option.some.inj hu2]
    decide
  have h := normalizer_id_invariant normEnv0 (.obj []) hall huuid
  exact ⟨h.1, rfl, by decide⟩

/-! ## Claim C5: rendering an instant in the supported formats

`renderIsoZ` is the specification-side rendering of a civil UTC date-time as
the ISO string `YYYY-MM-DDTHH:MM:SSZ`; the equivalence claim compares the
parser's result on this rendering with its result on the corresponding epoch
milliseconds and epoch seconds numbers. -/

/-- A decimal digit character. -/
def digitChar10 (k : Nat) : Char := Char.ofNat (48 + k)

/-- The character of the low decimal digit of `n`. -/
def dCh (n : Nat) : Char := digitChar10 (n % 10)

/-- `YYYY-MM-DDTHH:MM:SSZ` with two-digit fields (four for the year). -/
def renderIsoZ (y mo d H Mi S : Nat) : JStr :=
  [dCh (y / 1000), dCh (y / 100), dCh (y / 10), dCh y, '-',
   dCh (mo / 10), dCh mo, '-', dCh (d / 10), dCh d, 'T',
   dCh (H / 10), dCh H, ':', dCh (Mi / 10), dCh Mi, ':',
   dCh (S / 10), dCh S, 'Z']

/-- Ground facts about decimal digit characters. -/
theorem digitChar10_facts : ∀ k, k < 10 →
    (digitChar10 k).isDigit = true ∧ jsWhitespace (digitChar10 k) = false ∧
    digitVal (digitChar10 k) = k ∧ digitChar10 k ≠ '-' ∧ digitChar10 k ≠ ',' ∧
    digitChar10 k ≠ ':' ∧ digitChar10 k ≠ '.' := by decide

/-- Digit characters are digits. -/
theorem dCh_isDigit (n : Nat) : (dCh n).isDigit = true :=
  (digitChar10_facts (n % 10) (Nat.mod_lt _ (by decide))).1

/-- Digit characters are not whitespace. -/
theorem dCh_not_ws (n : Nat) : jsWhitespace (dCh n) = false :=
  (digitChar10_facts (n % 10) (Nat.mod_lt _ (by decide))).2.1

/-- The numeric value of a digit character. -/
theorem digitVal_dCh (n : Nat) : digitVal (dCh n) = n % 10 :=
  (digitChar10_facts (n % 10) (Nat.mod_lt _ (by decide))).2.2.1

/-- Digit characters are not the hyphen. -/
theorem dCh_ne_dash (n : Nat) : dCh n ≠ '-' :=
  (digitChar10_facts (n % 10) (Nat.mod_lt _ (by decide))).2.2.2.1

/-- Digit characters are not the comma. -/
theorem dCh_ne_comma (n : Nat) : dCh n ≠ ',' :=
  (digitChar10_facts (n % 10) (Nat.mod_lt _ (by decide))).2.2.2.2.1

/-- Digit characters are not the colon. -/
theorem dCh_ne_colon (n : Nat) : dCh n ≠ ':' :=
  (digitChar10_facts (n % 10) (Nat.mod_lt _ (by decide))).2.2.2.2.2.1

/-- Digit characters are not the dot. -/
theorem dCh_ne_dot (n : Nat) : dCh n ≠ '.' :=
  (digitChar10_facts (n % 10) (Nat.mod_lt _ (by decide))).2.2.2.2.2.2

/-- Further ground facts about decimal digit characters. -/
theorem digitChar10_facts2 : ∀ k, k < 10 →
    digitChar10 k ≠ 'Z' ∧ digitChar10 k ≠ '+' := by decide

/-- Digit characters are not `Z`. -/
theorem dCh_ne_Z (n : Nat) : dCh n ≠ 'Z' :=
  (digitChar10_facts2 (n % 10) (Nat.mod_lt _ (by decide))).1

/-- `dropWhile` is the identity when the predicate never holds. -/
theorem dropWhile_all_false (p : Char → Bool) (l : JStr)
    (h : ∀ c ∈ l, p c = false) : l.dropWhile p = l := by
  cases l with
  | nil => rfl
  | cons c cs =>
    have := h c (List.mem_cons_self c cs)
    simp [List.dropWhile_cons, this]

/-- Trimming a string with no whitespace is the identity. -/
theorem trimList_of_no_ws (l : JStr) (h : ∀ c ∈ l, jsWhitespace c = false) :
    trimList l = l := by
  unfold trimList
  rw [dropWhile_all_false _ l h,
      dropWhile_all_false _ l.reverse (fun c hc => h c (List.mem_reverse.mp hc)),
      List.reverse_reverse]

/-- `replace` is the identity when the pattern does not occur. -/
theorem jsReplaceOnce_not_mem (old repl : Char) (l : JStr) :
    (∀ c ∈ l, c ≠ old) → jsReplaceOnce old repl l = l := by
  induction l with
  | nil => intro _; rfl
  | cons c cs ih =>
    intro h
    unfold jsReplaceOnce
    rw [if_neg (h c (List.mem_cons_self c cs)),
      ih (fun x hx => h x (List.mem_cons_of_mem c hx))]

/-- Every character of the rendering is a digit character or one of the four
literal separators. -/
theorem renderIsoZ_mem (y mo d H Mi S : Nat) (c : Char)
    (hc : c ∈ renderIsoZ y mo d H Mi S) :
    (∃ n, c = dCh n) ∨ c = '-' ∨ c = 'T' ∨ c = ':' ∨ c = 'Z' := by
  simp only [renderIsoZ, List.mem_cons, List.not_mem_nil, or_false] at hc
  rcases hc with h|h|h|h|h|h|h|h|h|h|h|h|h|h|h|h|h|h|h|h
  exacts [Or.inl ⟨_, h⟩, Or.inl ⟨_, h⟩, Or.inl ⟨_, h⟩, Or.inl ⟨_, h⟩,
    Or.inr (Or.inl h), Or.inl ⟨_, h⟩, Or.inl ⟨_, h⟩, Or.inr (Or.inl h),
    Or.inl ⟨_, h⟩, Or.inl ⟨_, h⟩, Or.inr (Or.inr (Or.inl h)),
    Or.inl ⟨_, h⟩, Or.inl ⟨_, h⟩, Or.inr (Or.inr (Or.inr (Or.inl h))),
    Or.inl ⟨_, h⟩, Or.inl ⟨_, h⟩, Or.inr (Or.inr (Or.inr (Or.inl h))),
    Or.inl ⟨_, h⟩, Or.inl ⟨_, h⟩, Or.inr (Or.inr (Or.inr (Or.inr h)))]

/-- The rendering contains no whitespace. -/
theorem renderIsoZ_no_ws (y mo d H Mi S : Nat) :
    ∀ c ∈ renderIsoZ y mo d H Mi S, jsWhitespace c = false := by
  intro c hc
  rcases renderIsoZ_mem y mo d H Mi S c hc with ⟨n, rfl⟩ | rfl | rfl | rfl | rfl
  · exact dCh_not_ws n
  all_goals decide

/-- The rendering contains no comma. -/
theorem renderIsoZ_no_comma (y mo d H Mi S : Nat) :
    ∀ c ∈ renderIsoZ y mo d H Mi S, c ≠ ',' := by
  intro c hc
  rcases renderIsoZ_mem y mo d H Mi S c hc with ⟨n, rfl⟩ | rfl | rfl | rfl | rfl
  · exact dCh_ne_comma n
  all_goals decide

/-- `split` distributes over the first separator occurrence. -/
theorem jsSplit_append_sep (sep : Char) (a b : JStr) (ha : ∀ c ∈ a, c ≠ sep) :
    jsSplit sep (a ++ sep :: b) = a :: jsSplit sep b := by
  induction a with
  | nil => simp [jsSplit]
  | cons c cs ih =>
    rw [List.cons_append]
    simp only [jsSplit]
    rw [if_neg (ha c (List.mem_cons_self c cs)),
      ih (fun x hx => ha x (List.mem_cons_of_mem c hx))]

/-- `split` on a separator-free string is the singleton. -/
theorem jsSplit_no_sep (sep : Char) (a : JStr) (ha : ∀ c ∈ a, c ≠ sep) :
    jsSplit sep a = [a] := by
  induction a with
  | nil => rfl
  | cons c cs ih =>
    unfold jsSplit
    rw [if_neg (ha c (List.mem_cons_self c cs)),
      ih (fun x hx => ha x (List.mem_cons_of_mem c hx))]

/-- `Number` of a non-empty all-digit, whitespace-free string is its decimal
value. -/
theorem jsNumberStr_all_digits (l : JStr) (hne : l ≠ [])
    (hd : isDigitList l = true) (hnw : ∀ c ∈ l, jsWhitespace c = false) :
    jsNumberStr l = some ((natOfDigits l : Int)) := by
  cases l with
  | nil => exact absurd rfl hne
  | cons c cs =>
    have hc : c.isDigit = true := by
      simp only [isDigitList, List.all_cons, Bool.and_eq_true] at hd
      exact hd.1
    simp only [jsNumberStr]
    rw [trimList_of_no_ws _ hnw]
    rw [if_neg (by simp : ¬(c :: cs : JStr) = [])]
    rw [if_neg (show ¬(c :: cs : JStr).head? = some '-' by
      intro he
      rw [Option.some.inj he] at hc
      exact absurd hc (by decide))]
    rw [if_neg (show ¬(c :: cs : JStr).head? = some '+' by
      intro he
      rw [Option.some.inj he] at hc
      exact absurd hc (by decide))]
    rw [if_pos hd]

/-- The two-digit rendering of `n ≤ 99` is all digits. -/
theorem isDigitList_pad2 (n : Nat) :
    isDigitList [dCh (n / 10), dCh n] = true := by
  simp [isDigitList, dCh_isDigit]

/-- Decimal value of the two-digit rendering. -/
theorem natOfDigits_pad2 (n : Nat) (h : n ≤ 99) :
    natOfDigits [dCh (n / 10), dCh n] = n := by
  unfold natOfDigits
  simp only [List.foldl_cons, List.foldl_nil, digitVal_dCh]
  omega

/-- Decimal value of the four-digit rendering. -/
theorem natOfDigits_pad4 (n : Nat) (h : n ≤ 9999) :
    natOfDigits [dCh (n / 1000), dCh (n / 100), dCh (n / 10), dCh n] = n := by
  unfold natOfDigits
  simp only [List.foldl_cons, List.foldl_nil, digitVal_dCh]
  omega

/-- `Number` of the two-digit rendering. -/
theorem jsNumberStr_pad2 (n : Nat) (h : n ≤ 99) :
    jsNumberStr [dCh (n / 10), dCh n] = some ((n : Nat) : Int) := by
  rw [jsNumberStr_all_digits _ (by simp) (isDigitList_pad2 n)
    (by intro c hc
        simp only [List.mem_cons, List.not_mem_nil, or_false] at hc
        rcases hc with rfl | rfl <;> exact dCh_not_ws _),
    natOfDigits_pad2 n h]

/-- `Number` of the four-digit rendering. -/
theorem jsNumberStr_pad4 (n : Nat) (h : n ≤ 9999) :
    jsNumberStr [dCh (n / 1000), dCh (n / 100), dCh (n / 10), dCh n] =
      some ((n : Nat) : Int) := by
  rw [jsNumberStr_all_digits _ (by simp)
    (by simp [isDigitList, dCh_isDigit])
    (by intro c hc
        simp only [List.mem_cons, List.not_mem_nil, or_false] at hc
        rcases hc with rfl | rfl | rfl | rfl <;> exact dCh_not_ws _),
    natOfDigits_pad4 n h]

/-- Clipping is idempotent under `Option.bind`. -/
theorem jsClipInt_bind_self (t : Int) :
    (jsClipInt t).bind jsClipInt = jsClipInt t := by
  by_cases h : -clipBound ≤ t ∧ t ≤ clipBound
  · unfold jsClipInt
    rw [if_pos h]
    show (if -clipBound ≤ t ∧ t ≤ clipBound then some t else none) = some t
    rw [if_pos h]
  · unfold jsClipInt
    rw [if_neg h]
    rfl

/-- Running `parseDateWithOptionalTime` on the rendered date and time-with-Z
pieces recovers `Date.UTC` of the written fields. -/
theorem parseDateWithOptionalTime_render (off : Int) (y mo d H Mi S : Nat)
    (hy2 : y ≤ 9999) (hmo2 : mo ≤ 99) (hd2 : d ≤ 99)
    (hH : H ≤ 99) (hMi : Mi ≤ 99) (hS : S ≤ 99) (hy100 : 100 ≤ y) :
    parseDateWithOptionalTime off
      [dCh (y / 1000), dCh (y / 100), dCh (y / 10), dCh y, '-',
       dCh (mo / 10), dCh mo, '-', dCh (d / 10), dCh d]
      [dCh (H / 10), dCh H, ':', dCh (Mi / 10), dCh Mi, ':',
       dCh (S / 10), dCh S, 'Z'] =
    jsClipInt (dateUTCRaw (y : Int) ((mo : Int) - 1) (d : Int) (H : Int)
      (Mi : Int) (S : Int) 0) := by
  have hnd : ∀ (a b : Nat) (x : Char),
      x ∈ [dCh a, dCh b] → x ≠ '-' := by
    intro a b x hx
    simp only [List.mem_cons, List.not_mem_nil, or_false] at hx
    rcases hx with rfl | rfl <;> exact dCh_ne_dash _
  have hsd : jsSplit '-' [dCh (y / 1000), dCh (y / 100), dCh (y / 10), dCh y, '-',
      dCh (mo / 10), dCh mo, '-', dCh (d / 10), dCh d] =
      [[dCh (y / 1000), dCh (y / 100), dCh (y / 10), dCh y],
       [dCh (mo / 10), dCh mo], [dCh (d / 10), dCh d]] := by
    have h1 := jsSplit_append_sep '-'
      [dCh (y / 1000), dCh (y / 100), dCh (y / 10), dCh y]
      ([dCh (mo / 10), dCh mo] ++ '-' :: [dCh (d / 10), dCh d])
      (by intro x hx
          simp only [List.mem_cons, List.not_mem_nil, or_false] at hx
          rcases hx with rfl | rfl | rfl | rfl <;> exact dCh_ne_dash _)
    have h2 := jsSplit_append_sep '-' [dCh (mo / 10), dCh mo]
      [dCh (d / 10), dCh d] (hnd _ _)
    have h3 := jsSplit_no_sep '-' [dCh (d / 10), dCh d] (hnd _ _)
    rw [h2, h3] at h1
    exact h1
  have hnc : ∀ (a b : Nat) (x : Char),
      x ∈ [dCh a, dCh b] → x ≠ ':' := by
    intro a b x hx
    simp only [List.mem_cons, List.not_mem_nil, or_false] at hx
    rcases hx with rfl | rfl <;> exact dCh_ne_colon _
  have hsp : jsSplit ':' [dCh (H / 10), dCh H, ':', dCh (Mi / 10), dCh Mi, ':',
      dCh (S / 10), dCh S] =
      [[dCh (H / 10), dCh H], [dCh (Mi / 10), dCh Mi], [dCh (S / 10), dCh S]] := by
    have h1 := jsSplit_append_sep ':' [dCh (H / 10), dCh H]
      ([dCh (Mi / 10), dCh Mi] ++ ':' :: [dCh (S / 10), dCh S]) (hnc _ _)
    have h2 := jsSplit_append_sep ':' [dCh (Mi / 10), dCh Mi]
      [dCh (S / 10), dCh S] (hnc _ _)
    have h3 := jsSplit_no_sep ':' [dCh (S / 10), dCh S] (hnc _ _)
    rw [h2, h3] at h1
    exact h1
  have hspd : jsSplit '.' [dCh (S / 10), dCh S] = [[dCh (S / 10), dCh S]] :=
    jsSplit_no_sep '.' [dCh (S / 10), dCh S]
      (by intro x hx
          simp only [List.mem_cons, List.not_mem_nil, or_false] at hx
          rcases hx with rfl | rfl <;> exact dCh_ne_dot _)
  have htz : extractTimeAndZone [dCh (H / 10), dCh H, ':', dCh (Mi / 10), dCh Mi,
      ':', dCh (S / 10), dCh S, 'Z'] =
      { timeStr := [dCh (H / 10), dCh H, ':', dCh (Mi / 10), dCh Mi, ':',
          dCh (S / 10), dCh S], tz := ['Z'] } := rfl
  have hy4 := jsNumberStr_pad4 y hy2
  have hm2 := jsNumberStr_pad2 mo hmo2
  have hd2n := jsNumberStr_pad2 d hd2
  have hH2 := jsNumberStr_pad2 H hH
  have hM2 := jsNumberStr_pad2 Mi hMi
  have hS2 := jsNumberStr_pad2 S hS
  have hadj : adjustYear (y : Int) = (y : Int) := by
    unfold adjustYear
    rw [if_neg (by omega)]
  simp only [parseDateWithOptionalTime, hsd, htz, hsp, hspd, List.get?,
    numOfOpt, numOrZero, hy4, hm2, hd2n, hH2, hM2, hS2, Option.map_some]
  rw [if_neg (show ¬([dCh (H / 10), dCh H, ':', dCh (Mi / 10), dCh Mi, ':',
    dCh (S / 10), dCh S, 'Z'] : JStr) = [] by simp)]
  rw [if_neg (show ¬([dCh (S / 10), dCh S] : JStr) = [] by simp)]
  rw [if_neg (show ¬(['Z'] : JStr) = [] by simp)]
  rw [if_pos trivial]
  simp only [Option.map_some', dateUTC?, hadj]
  exact jsClipInt_bind_self _

/-- The string parser on the ISO `Z` rendering recovers (the clipped)
`Date.UTC` of the written fields. -/
theorem parseTimestampFromString_renderIsoZ (env : TsEnv) (y mo d H Mi S : Nat)
    (hy1 : 1000 ≤ y) (hy2 : y ≤ 9999) (hmo2 : mo ≤ 99) (hd2 : d ≤ 99)
    (hH : H ≤ 99) (hMi : Mi ≤ 99) (hS : S ≤ 99) :
    parseTimestampFromString env (renderIsoZ y mo d H Mi S) =
      jsClipInt (dateUTCRaw (y : Int) ((mo : Int) - 1) (d : Int) (H : Int)
        (Mi : Int) (S : Int) 0) := by
  have hnorm : jsReplaceOnce ',' '.' (trimList (renderIsoZ y mo d H Mi S)) =
      renderIsoZ y mo d H Mi S := by
    rw [trimList_of_no_ws _ (renderIsoZ_no_ws y mo d H Mi S),
      jsReplaceOnce_not_mem _ _ _ (renderIsoZ_no_comma y mo d H Mi S)]
  have hdp : isBareDateRe [dCh (y / 1000), dCh (y / 100), dCh (y / 10), dCh y, '-',
      dCh (mo / 10), dCh mo, '-', dCh (d / 10), dCh d] = true := by
    simp only [isBareDateRe, dCh_isDigit]
    decide
  simp only [parseTimestampFromString, hnorm]
  rw [if_neg (by
    rw [show isBareDateRe (renderIsoZ y mo d H Mi S) = false from rfl]
    simp)]
  have hcond : isBareDateRe ((renderIsoZ y mo d H Mi S).take 10) = true ∧
      ((renderIsoZ y mo d H Mi S).length = 10 ∨
        (renderIsoZ y mo d H Mi S).get? 10 = some 'T' ∨
        (renderIsoZ y mo d H Mi S).get? 10 = some ' ') := by
    refine ⟨?_, Or.inr (Or.inl rfl)⟩
    rw [show (renderIsoZ y mo d H Mi S).take 10 =
      [dCh (y / 1000), dCh (y / 100), dCh (y / 10), dCh y, '-',
       dCh (mo / 10), dCh mo, '-', dCh (d / 10), dCh d] from rfl]
    exact hdp
  rw [if_pos hcond]
  rw [show (renderIsoZ y mo d H Mi S).take 10 =
    [dCh (y / 1000), dCh (y / 100), dCh (y / 10), dCh y, '-',
     dCh (mo / 10), dCh mo, '-', dCh (d / 10), dCh d] from rfl]
  rw [show (renderIsoZ y mo d H Mi S).drop
      (if (renderIsoZ y mo d H Mi S).length = 10 then 10 else 11) =
      [dCh (H / 10), dCh H, ':', dCh (Mi / 10), dCh Mi, ':',
       dCh (S / 10), dCh S, 'Z'] from rfl]
  exact parseDateWithOptionalTime_render env.off y mo d H Mi S hy2 hmo2 hd2
    hH hMi hS (by omega)

/-- `YYYY-MM-DDTHH:MM:SS±HH:MM` with an explicit numeric zone offset
(`neg` selects the sign). -/
def renderIsoOffset (y mo d H Mi S : Nat) (neg : Bool) (oh om : Nat) : JStr :=
  [dCh (y / 1000), dCh (y / 100), dCh (y / 10), dCh y, '-',
   dCh (mo / 10), dCh mo, '-', dCh (d / 10), dCh d, 'T',
   dCh (H / 10), dCh H, ':', dCh (Mi / 10), dCh Mi, ':',
   dCh (S / 10), dCh S, (if neg then '-' else '+'),
   dCh (oh / 10), dCh oh, ':', dCh (om / 10), dCh om]

/-- The offset rendering contains no whitespace. -/
theorem renderIsoOffset_no_ws (y mo d H Mi S : Nat) (neg : Bool) (oh om : Nat) :
    ∀ c ∈ renderIsoOffset y mo d H Mi S neg oh om, jsWhitespace c = false := by
  intro c hc
  simp only [renderIsoOffset, List.mem_cons, List.not_mem_nil, or_false] at hc
  rcases hc with rfl|rfl|rfl|rfl|rfl|rfl|rfl|rfl|rfl|rfl|rfl|rfl|rfl|rfl|rfl|rfl|
    rfl|rfl|rfl|rfl|rfl|rfl|rfl|rfl|rfl <;>
    first
      | exact dCh_not_ws _
      | decide
      | (cases neg <;> decide)

/-- The offset rendering contains no comma. -/
theorem renderIsoOffset_no_comma (y mo d H Mi S : Nat) (neg : Bool) (oh om : Nat) :
    ∀ c ∈ renderIsoOffset y mo d H Mi S neg oh om, c ≠ ',' := by
  intro c hc
  simp only [renderIsoOffset, List.mem_cons, List.not_mem_nil, or_false] at hc
  rcases hc with rfl|rfl|rfl|rfl|rfl|rfl|rfl|rfl|rfl|rfl|rfl|rfl|rfl|rfl|rfl|rfl|
    rfl|rfl|rfl|rfl|rfl|rfl|rfl|rfl|rfl <;>
    first
      | exact dCh_ne_comma _
      | decide
      | (cases neg <;> decide)

/-- Running `parseDateWithOptionalTime` on the rendered date and
time-with-numeric-offset pieces recovers `Date.UTC` of the written fields
shifted by the written offset. -/
theorem parseDateWithOptionalTime_render_offset (off : Int) (y mo d H Mi S : Nat)
    (neg : Bool) (oh om : Nat)
    (hy2 : y ≤ 9999) (hmo2 : mo ≤ 99) (hd2 : d ≤ 99)
    (hH : H ≤ 99) (hMi : Mi ≤ 99) (hS : S ≤ 99) (hy100 : 100 ≤ y)
    (hoh : oh ≤ 99) (hom : om ≤ 99) :
    parseDateWithOptionalTime off
      [dCh (y / 1000), dCh (y / 100), dCh (y / 10), dCh y, '-',
       dCh (mo / 10), dCh mo, '-', dCh (d / 10), dCh d]
      [dCh (H / 10), dCh H, ':', dCh (Mi / 10), dCh Mi, ':',
       dCh (S / 10), dCh S, (if neg then '-' else '+'),
       dCh (oh / 10), dCh oh, ':', dCh (om / 10), dCh om] =
    ((jsClipInt (dateUTCRaw (y : Int) ((mo : Int) - 1) (d : Int) (H : Int)
        (Mi : Int) (S : Int) 0)).bind
      (fun u => some (u - (if neg then (-1 : Int) else 1) *
        ((oh : Int) * 60 + (om : Int)) * 60000))).bind jsClipInt := by
  have hnd : ∀ (a b : Nat) (x : Char),
      x ∈ [dCh a, dCh b] → x ≠ '-' := by
    intro a b x hx
    simp only [List.mem_cons, List.not_mem_nil, or_false] at hx
    rcases hx with rfl | rfl <;> exact dCh_ne_dash _
  have hnc : ∀ (a b : Nat) (x : Char),
      x ∈ [dCh a, dCh b] → x ≠ ':' := by
    intro a b x hx
    simp only [List.mem_cons, List.not_mem_nil, or_false] at hx
    rcases hx with rfl | rfl <;> exact dCh_ne_colon _
  have hsd : jsSplit '-' [dCh (y / 1000), dCh (y / 100), dCh (y / 10), dCh y, '-',
      dCh (mo / 10), dCh mo, '-', dCh (d / 10), dCh d] =
      [[dCh (y / 1000), dCh (y / 100), dCh (y / 10), dCh y],
       [dCh (mo / 10), dCh mo], [dCh (d / 10), dCh d]] := by
    have h1 := jsSplit_append_sep '-'
      [dCh (y / 1000), dCh (y / 100), dCh (y / 10), dCh y]
      ([dCh (mo / 10), dCh mo] ++ '-' :: [dCh (d / 10), dCh d])
      (by intro x hx
          simp only [List.mem_cons, List.not_mem_nil, or_false] at hx
          rcases hx with rfl | rfl | rfl | rfl <;> exact dCh_ne_dash _)
    have h2 := jsSplit_append_sep '-' [dCh (mo / 10), dCh mo]
      [dCh (d / 10), dCh d] (hnd _ _)
    have h3 := jsSplit_no_sep '-' [dCh (d / 10), dCh d] (hnd _ _)
    rw [h2, h3] at h1
    exact h1
  have hsp : jsSplit ':' [dCh (H / 10), dCh H, ':', dCh (Mi / 10), dCh Mi, ':',
      dCh (S / 10), dCh S] =
      [[dCh (H / 10), dCh H], [dCh (Mi / 10), dCh Mi], [dCh (S / 10), dCh S]] := by
    have h1 := jsSplit_append_sep ':' [dCh (H / 10), dCh H]
      ([dCh (Mi / 10), dCh Mi] ++ ':' :: [dCh (S / 10), dCh S]) (hnc _ _)
    have h2 := jsSplit_append_sep ':' [dCh (Mi / 10), dCh Mi]
      [dCh (S / 10), dCh S] (hnc _ _)
    have h3 := jsSplit_no_sep ':' [dCh (S / 10), dCh S] (hnc _ _)
    rw [h2, h3] at h1
    exact h1
  have hspd : jsSplit '.' [dCh (S / 10), dCh S] = [[dCh (S / 10), dCh S]] :=
    jsSplit_no_sep '.' [dCh (S / 10), dCh S]
      (by intro x hx
          simp only [List.mem_cons, List.not_mem_nil, or_false] at hx
          rcases hx with rfl | rfl <;> exact dCh_ne_dot _)
  have hsptz : jsSplit ':' [dCh (oh / 10), dCh oh, ':', dCh (om / 10), dCh om] =
      [[dCh (oh / 10), dCh oh], [dCh (om / 10), dCh om]] := by
    have h1 := jsSplit_append_sep ':' [dCh (oh / 10), dCh oh]
      [dCh (om / 10), dCh om] (hnc _ _)
    have h2 := jsSplit_no_sep ':' [dCh (om / 10), dCh om] (hnc _ _)
    rw [h2] at h1
    exact h1
  have htz : extractTimeAndZone [dCh (H / 10), dCh H, ':', dCh (Mi / 10), dCh Mi,
      ':', dCh (S / 10), dCh S, (if neg then '-' else '+'),
      dCh (oh / 10), dCh oh, ':', dCh (om / 10), dCh om] =
      { timeStr := [dCh (H / 10), dCh H, ':', dCh (Mi / 10), dCh Mi, ':',
          dCh (S / 10), dCh S],
        tz := [(if neg then '-' else '+'), dCh (oh / 10), dCh oh, ':',
          dCh (om / 10), dCh om] } := by
    unfold extractTimeAndZone
    rw [if_neg (by
      rw [show ([dCh (H / 10), dCh H, ':', dCh (Mi / 10), dCh Mi,
        ':', dCh (S / 10), dCh S, (if neg then '-' else '+'),
        dCh (oh / 10), dCh oh, ':', dCh (om / 10), dCh om] : JStr).getLast? =
        some (dCh om) from rfl]
      intro he
      exact dCh_ne_Z om (Option.some.inj he))]
    rw [if_pos (by
      constructor
      · rw [show ([dCh (H / 10), dCh H, ':', dCh (Mi / 10), dCh Mi,
          ':', dCh (S / 10), dCh S, (if neg then '-' else '+'),
          dCh (oh / 10), dCh oh, ':', dCh (om / 10), dCh om] : JStr).length = 14
          from rfl]
        decide
      · rw [show (([dCh (H / 10), dCh H, ':', dCh (Mi / 10), dCh Mi,
          ':', dCh (S / 10), dCh S, (if neg then '-' else '+'),
          dCh (oh / 10), dCh oh, ':', dCh (om / 10), dCh om] : JStr)).drop
          (([dCh (H / 10), dCh H, ':', dCh (Mi / 10), dCh Mi,
          ':', dCh (S / 10), dCh S, (if neg then '-' else '+'),
          dCh (oh / 10), dCh oh, ':', dCh (om / 10), dCh om] : JStr).length - 6) =
          [(if neg then '-' else '+'), dCh (oh / 10), dCh oh, ':',
            dCh (om / 10), dCh om] from rfl]
        simp only [isTzTail, dCh_isDigit]
        cases neg <;> decide)]
    rfl
  have hy4 := jsNumberStr_pad4 y hy2
  have hm2 := jsNumberStr_pad2 mo hmo2
  have hd2n := jsNumberStr_pad2 d hd2
  have hH2 := jsNumberStr_pad2 H hH
  have hM2 := jsNumberStr_pad2 Mi hMi
  have hS2 := jsNumberStr_pad2 S hS
  have hoh2 := jsNumberStr_pad2 oh hoh
  have hom2 := jsNumberStr_pad2 om hom
  have hadj : adjustYear (y : Int) = (y : Int) := by
    unfold adjustYear
    rw [if_neg (by omega)]
  have hsign : (if ([(if neg then '-' else '+'), dCh (oh / 10), dCh oh, ':',
      dCh (om / 10), dCh om] : JStr).head? = some '-' then (-1 : Int) else 1) =
      (if neg then (-1 : Int) else 1) := by
    cases neg <;> rfl
  simp only [parseDateWithOptionalTime, hsd, htz, hsp, hspd, hsptz, List.get?,
    numOfOpt, numOrZero, hy4, hm2, hd2n, hH2, hM2, hS2, hoh2, hom2,
    Option.map_some']
  rw [if_neg (show ¬([dCh (H / 10), dCh H, ':', dCh (Mi / 10), dCh Mi, ':',
    dCh (S / 10), dCh S, (if neg then '-' else '+'),
    dCh (oh / 10), dCh oh, ':', dCh (om / 10), dCh om] : JStr) = [] by simp)]
  rw [if_neg (show ¬([dCh (S / 10), dCh S] : JStr) = [] by simp)]
  rw [if_neg (show ¬([(if neg then '-' else '+'), dCh (oh / 10), dCh oh, ':',
    dCh (om / 10), dCh om] : JStr) = [] by simp)]
  rw [if_neg (show ¬([(if neg then '-' else '+'), dCh (oh / 10), dCh oh, ':',
    dCh (om / 10), dCh om] : JStr) = ['Z'] by simp)]
  rw [hsign]
  rw [show (List.drop 1 [(if neg then '-' else '+'), dCh (oh / 10), dCh oh, ':',
    dCh (om / 10), dCh om] : JStr) =
    [dCh (oh / 10), dCh oh, ':', dCh (om / 10), dCh om] from rfl]
  simp only [hsptz, List.get?, numOfOpt, hoh2, hom2, Option.bind_some,
    Option.map_some']
  simp only [dateUTC?, hadj]
  rfl

/-- The string parser on the numeric-offset rendering recovers `Date.UTC` of
the written fields shifted by the written offset. -/
theorem parseTimestampFromString_renderIsoOffset (env : TsEnv)
    (y mo d H Mi S : Nat) (neg : Bool) (oh om : Nat)
    (hy1 : 1000 ≤ y) (hy2 : y ≤ 9999) (hmo2 : mo ≤ 99) (hd2 : d ≤ 99)
    (hH : H ≤ 99) (hMi : Mi ≤ 99) (hS : S ≤ 99) (hoh : oh ≤ 99) (hom : om ≤ 99) :
    parseTimestampFromString env (renderIsoOffset y mo d H Mi S neg oh om) =
    ((jsClipInt (dateUTCRaw (y : Int) ((mo : Int) - 1) (d : Int) (H : Int)
        (Mi : Int) (S : Int) 0)).bind
      (fun u => some (u - (if neg then (-1 : Int) else 1) *
        ((oh : Int) * 60 + (om : Int)) * 60000))).bind jsClipInt := by
  have hnorm : jsReplaceOnce ',' '.'
      (trimList (renderIsoOffset y mo d H Mi S neg oh om)) =
      renderIsoOffset y mo d H Mi S neg oh om := by
    rw [trimList_of_no_ws _ (renderIsoOffset_no_ws y mo d H Mi S neg oh om),
      jsReplaceOnce_not_mem _ _ _ (renderIsoOffset_no_comma y mo d H Mi S neg oh om)]
  have hdp : isBareDateRe [dCh (y / 1000), dCh (y / 100), dCh (y / 10), dCh y, '-',
      dCh (mo / 10), dCh mo, '-', dCh (d / 10), dCh d] = true := by
    simp only [isBareDateRe, dCh_isDigit]
    decide
  simp only [parseTimestampFromString, hnorm]
  rw [if_neg (by
    rw [show isBareDateRe (renderIsoOffset y mo d H Mi S neg oh om) = false
      from rfl]
    simp)]
  have hcond : isBareDateRe ((renderIsoOffset y mo d H Mi S neg oh om).take 10) = true ∧
      ((renderIsoOffset y mo d H Mi S neg oh om).length = 10 ∨
        (renderIsoOffset y mo d H Mi S neg oh om).get? 10 = some 'T' ∨
        (renderIsoOffset y mo d H Mi S neg oh om).get? 10 = some ' ') := by
    refine ⟨?_, Or.inr (Or.inl rfl)⟩
    rw [show (renderIsoOffset y mo d H Mi S neg oh om).take 10 =
      [dCh (y / 1000), dCh (y / 100), dCh (y / 10), dCh y, '-',
       dCh (mo / 10), dCh mo, '-', dCh (d / 10), dCh d] from rfl]
    exact hdp
  rw [if_pos hcond]
  rw [show (renderIsoOffset y mo d H Mi S neg oh om).take 10 =
    [dCh (y / 1000), dCh (y / 100), dCh (y / 10), dCh y, '-',
     dCh (mo / 10), dCh mo, '-', dCh (d / 10), dCh d] from rfl]
  rw [show (renderIsoOffset y mo d H Mi S neg oh om).drop
      (if (renderIsoOffset y mo d H Mi S neg oh om).length = 10 then 10 else 11) =
      [dCh (H / 10), dCh H, ':', dCh (Mi / 10), dCh Mi, ':',
       dCh (S / 10), dCh S, (if neg then '-' else '+'),
       dCh (oh / 10), dCh oh, ':', dCh (om / 10), dCh om] from rfl]
  exact parseDateWithOptionalTime_render_offset env.off y mo d H Mi S neg oh om
    hy2 hmo2 hd2 hH hMi hS (by omega) hoh hom

/-! ## Claim C5 -/

/-- Claim C5: for every instant representable within the supported formats
(a civil UTC date-time whose `Date.UTC` value `t` lies in the `Date` range;
as epoch milliseconds the format covers `t` above the 1e12 threshold, as
epoch seconds those `t` whose second count is at most the threshold), the
parser returns the same instant whether the input is the ISO rendering with
an explicit `Z` offset, the number `t` (milliseconds), or the number
`t / 1000` (seconds). -/
theorem timestamp_format_equivalence (env : TsEnv) (y mo d H Mi S : Nat)
    (hy1 : 1000 ≤ y) (hy2 : y ≤ 9999) (hmo1 : 1 ≤ mo) (hmo2 : mo ≤ 12)
    (hd1 : 1 ≤ d) (hd2 : d ≤ 31) (hH : H ≤ 23) (hMi : Mi ≤ 59) (hS : S ≤ 59)
    (hlo : -(8640000000000000 : Int) ≤
      dateUTCRaw (y : Int) ((mo : Int) - 1) (d : Int) (H : Int) (Mi : Int) (S : Int) 0)
    (hhi : dateUTCRaw (y : Int) ((mo : Int) - 1) (d : Int) (H : Int) (Mi : Int) (S : Int) 0 ≤
      8640000000000000) :
    parseTimestamp env (.str (renderIsoZ y mo d H Mi S)) =
      some (dateUTCRaw (y : Int) ((mo : Int) - 1) (d : Int) (H : Int) (Mi : Int) (S : Int) 0) ∧
    (tsThreshold <
        dateUTCRaw (y : Int) ((mo : Int) - 1) (d : Int) (H : Int) (Mi : Int) (S : Int) 0 →
      parseTimestamp env
        (.num (dateUTCRaw (y : Int) ((mo : Int) - 1) (d : Int) (H : Int) (Mi : Int) (S : Int) 0)) =
      some (dateUTCRaw (y : Int) ((mo : Int) - 1) (d : Int) (H : Int) (Mi : Int) (S : Int) 0)) ∧
    (∀ secs : Int,
      secs * 1000 =
        dateUTCRaw (y : Int) ((mo : Int) - 1) (d : Int) (H : Int) (Mi : Int) (S : Int) 0 →
      secs ≤ tsThreshold →
      parseTimestamp env (.num secs) =
        some (dateUTCRaw (y : Int) ((mo : Int) - 1) (d : Int) (H : Int) (Mi : Int) (S : Int) 0)) ∧
    (∀ (y2 mo2 d2 H2 Mi2 S2 : Nat) (neg : Bool) (oh om : Nat),
      1000 ≤ y2 → y2 ≤ 9999 → mo2 ≤ 99 → d2 ≤ 99 → H2 ≤ 99 → Mi2 ≤ 99 → S2 ≤ 99 →
      oh ≤ 99 → om ≤ 99 →
      -(8640000000000000 : Int) ≤
        dateUTCRaw (y2 : Int) ((mo2 : Int) - 1) (d2 : Int) (H2 : Int) (Mi2 : Int) (S2 : Int) 0 →
      dateUTCRaw (y2 : Int) ((mo2 : Int) - 1) (d2 : Int) (H2 : Int) (Mi2 : Int) (S2 : Int) 0 ≤
        8640000000000000 →
      dateUTCRaw (y2 : Int) ((mo2 : Int) - 1) (d2 : Int) (H2 : Int) (Mi2 : Int) (S2 : Int) 0 -
          (if neg then (-1 : Int) else 1) * ((oh : Int) * 60 + (om : Int)) * 60000 =
        dateUTCRaw (y : Int) ((mo : Int) - 1) (d : Int) (H : Int) (Mi : Int) (S : Int) 0 →
      parseTimestamp env (.str (renderIsoOffset y2 mo2 d2 H2 Mi2 S2 neg oh om)) =
        some (dateUTCRaw (y : Int) ((mo : Int) - 1) (d : Int) (H : Int) (Mi : Int) (S : Int) 0)) := by
  refine ⟨?_, ?_, ?_, ?_⟩
  · have h := parseTimestampFromString_renderIsoZ env y mo d H Mi S hy1 hy2
      (by omega) (by omega) (by omega) (by omega) (by omega)
    show parseTimestampFromString env (renderIsoZ y mo d H Mi S) = _
    rw [h]
    unfold jsClipInt clipBound
    rw [if_pos ⟨hlo, hhi⟩]
  · intro hgt
    have hred : parseTimestamp env
        (.num (dateUTCRaw (y : Int) ((mo : Int) - 1) (d : Int) (H : Int) (Mi : Int) (S : Int) 0)) =
        jsClipInt (if dateUTCRaw (y : Int) ((mo : Int) - 1) (d : Int) (H : Int) (Mi : Int) (S : Int) 0 >
            tsThreshold
          then dateUTCRaw (y : Int) ((mo : Int) - 1) (d : Int) (H : Int) (Mi : Int) (S : Int) 0
          else dateUTCRaw (y : Int) ((mo : Int) - 1) (d : Int) (H : Int) (Mi : Int) (S : Int) 0 * 1000) :=
      rfl
    rw [hred, if_pos hgt]
    unfold jsClipInt clipBound
    rw [if_pos ⟨hlo, hhi⟩]
  · intro secs hsecs hle
    have hred : parseTimestamp env (.num secs) =
        jsClipInt (if secs > tsThreshold then secs else secs * 1000) := rfl
    rw [hred, if_neg (by
      unfold tsThreshold at hle ⊢
      omega)]
    rw [hsecs]
    unfold jsClipInt clipBound
    rw [if_pos ⟨hlo, hhi⟩]
  · intro y2 mo2 d2 H2 Mi2 S2 neg oh om hy1b hy2b hmob hdb hHb hMib hSb hohb homb
      hlob hhib hdenote
    have h := parseTimestampFromString_renderIsoOffset env y2 mo2 d2 H2 Mi2 S2
      neg oh om hy1b hy2b hmob hdb hHb hMib hSb hohb homb
    show parseTimestampFromString env (renderIsoOffset y2 mo2 d2 H2 Mi2 S2 neg oh om) = _
    rw [h]
    have hclip2 : jsClipInt (dateUTCRaw (y2 : Int) ((mo2 : Int) - 1) (d2 : Int)
        (H2 : Int) (Mi2 : Int) (S2 : Int) 0) =
        some (dateUTCRaw (y2 : Int) ((mo2 : Int) - 1) (d2 : Int) (H2 : Int)
          (Mi2 : Int) (S2 : Int) 0) := by
      unfold jsClipInt clipBound
      rw [if_pos ⟨hlob, hhib⟩]
    rw [hclip2]
    show jsClipInt (dateUTCRaw (y2 : Int) ((mo2 : Int) - 1) (d2 : Int) (H2 : Int)
      (Mi2 : Int) (S2 : Int) 0 -
      (if neg then (-1 : Int) else 1) * ((oh : Int) * 60 + (om : Int)) * 60000) = _
    rw [hdenote]
    unfold jsClipInt clipBound
    rw [if_pos ⟨hlo, hhi⟩]

/-- Witness for C5 at the instant 1700000000000 ms = 2023-11-14T22:13:20Z:
the three representations parse to the same instant. -/
theorem timestamp_format_equivalence_witness :
    parseTimestamp tsEnv0 (.str "2023-11-14T22:13:20Z".toList) =
      some 1700000000000 ∧
    parseTimestamp tsEnv0 (.num 1700000000000) = some 1700000000000 ∧
    parseTimestamp tsEnv0 (.num 1700000000) = some 1700000000000 ∧
    parseTimestamp tsEnv0 (.str "2023-11-14T19:13:20-03:00".toList) =
      some 1700000000000 := by
  have h := timestamp_format_equivalence tsEnv0 2023 11 14 22 13 20
    (by decide) (by decide) (by decide) (by decide) (by decide) (by decide)
    (by decide) (by decide) (by decide) (by decide) (by decide)
  have hrender : renderIsoZ 2023 11 14 22 13 20 =
      "2023-11-14T22:13:20Z".toList := by decide
  have ht : dateUTCRaw ((2023 : Nat) : Int) (((11 : Nat) : Int) - 1)
      ((14 : Nat) : Int) ((22 : Nat) : Int) ((13 : Nat) : Int) ((20 : Nat) : Int) 0 =
      1700000000000 := by decide
  refine ⟨?_, ?_, ?_, ?_⟩
  · have h1 := h.1
    rw [hrender, ht] at h1
    exact h1
  · have h2 := h.2.1 (by rw [ht]; decide)
    rw [ht] at h2
    exact h2
  · have h3 := h.2.2.1 1700000000 (by rw [ht]; decide) (by decide)
    rw [ht] at h3
    exact h3
  · have h4 := h.2.2.2 2023 11 14 19 13 20 true 3 0
      (by decide) (by decide) (by decide) (by decide) (by decide) (by decide)
      (by decide) (by decide) (by decide) (by decide) (by decide)
      (by rw [ht]; decide)
    rw [ht] at h4
    rw [show renderIsoOffset 2023 11 14 19 13 20 true 3 0 =
      "2023-11-14T19:13:20-03:00".toList from by decide] at h4
    exact h4

end Criaitor
